import Mathlib

/-!
blink1raw: the token interpreter and its 9-byte feature reports

A shallow embedding of `src/blink1raw.c`.

* C strings (the `argv` entries, the `sscanf` format strings) are `List Char`.
* `uint8_t` / `uint16_t` values are `Nat` with an explicit `% 256` / `% 65536`
  wherever the C code narrows (a `sscanf` store, a parameter of type `uint8_t`).
* The operating system (`open`, the two `ioctl` requests) is an oracle `Env`;
  every system call, `perror` and `usage` call is appended to an event log, so
  that "the reports sent" is the projection `sent` of that log.
* `exit(1)` inside `usage` is the constructor `Run.exit`.
-/

namespace Blink1raw

/-! ## Constants of the source -/

def BLINK1_VENDOR_ID : Nat := 0x27B8
def BLINK1_DEVICE_ID : Nat := 0x01ED
def BLINK1_BUF_SIZE : Nat := 9
def STEPS : Nat := 32

/-- The value of `ULONG_MAX` on the LP64 targets that have `hidraw`. -/
def ULONG_MAX : Nat := 18446744073709551615

/-- The value of the C constant `EOF`. -/
def EOF : Int := -1

/-! ## The part of `sscanf` the program uses

The formats of the source consist of ordinary characters and the conversions
`%hhu` and `%hu`.  The model follows the C library: an ordinary character has
to match the next input character; `%hhu`/`%hu` skip white space, accept an
optional sign and a non-empty run of decimal digits, convert like `strtoul`
and store the result narrowed to the width of the pointee.  The return value
is the number of stores, or `EOF` when the input ends before the first store. -/

/-- The `isspace` of the C locale. -/
def isspace (c : Char) : Bool := decide (c.toNat = 32 ∨ (9 ≤ c.toNat ∧ c.toNat ≤ 13))

/-- The `isdigit` of the C locale. -/
def isdigit (c : Char) : Bool := decide (48 ≤ c.toNat ∧ c.toNat ≤ 57)

/-- One directive of a format string. -/
inductive Directive where
  | lit (c : Char)
  | hhu
  | hu
  deriving DecidableEq

/-- Splits a format string into directives (only `%hhu` and `%hu` occur as
conversions in the source). -/
def parseFormat : List Char → List Directive
  | '%' :: 'h' :: 'h' :: 'u' :: gs => Directive.hhu :: parseFormat gs
  | '%' :: 'h' :: 'u' :: gs => Directive.hu :: parseFormat gs
  | c :: fs => Directive.lit c :: parseFormat fs
  | [] => []

/-- Outcome of one numeric conversion. -/
inductive Conv where
  | ok (v : Nat) (rest : List Char)
  | inputFailure
  | matchingFailure
  deriving DecidableEq

/-- Drops the leading white space. -/
def skipSpace : List Char → List Char
  | [] => []
  | c :: cs => if isspace c then skipSpace cs else c :: cs

/-- Reads the longest run of decimal digits, accumulating its value. -/
def readDigits : List Char → Nat → Nat × List Char
  | [], acc => (acc, [])
  | c :: cs, acc =>
    if isdigit c then readDigits cs (acc * 10 + (c.toNat - 48)) else (acc, c :: cs)

/-- The result of `strtoul` for a digit string of value `v` with or without
a leading minus sign. -/
def strtoul (neg : Bool) (v : Nat) : Nat :=
  if ULONG_MAX < v then ULONG_MAX
  else if neg then (ULONG_MAX + 1 - v) % (ULONG_MAX + 1)
  else v

/-- The conversion `%u` before narrowing. -/
def convUnsigned (inp : List Char) : Conv :=
  match skipSpace inp with
  | [] => Conv.inputFailure
  | c :: cs =>
    let body := if c = '-' ∨ c = '+' then cs else c :: cs
    match body with
    | [] => Conv.matchingFailure
    | d :: ds =>
      if isdigit d then
        Conv.ok (strtoul (decide (c = '-')) (readDigits (d :: ds) 0).1) (readDigits (d :: ds) 0).2
      else Conv.matchingFailure

/-- The return value when the input ends inside a directive. -/
def inputError (vals : List Nat) : Int × List Nat :=
  (if vals.length = 0 then EOF else (vals.length : Int), vals)

/-- Runs the directives over the input; `vals` are the values stored so far,
in the order of the pointer arguments. -/
def scanDirs : List Directive → List Char → List Nat → Int × List Nat
  | [], _, vals => ((vals.length : Int), vals)
  | Directive.lit c :: fs, inp, vals =>
    match inp with
    | [] => inputError vals
    | x :: xs => if x = c then scanDirs fs xs vals else ((vals.length : Int), vals)
  | Directive.hhu :: fs, inp, vals =>
    match convUnsigned inp with
    | Conv.ok v rest => scanDirs fs rest (vals ++ [v % 256])
    | Conv.inputFailure => inputError vals
    | Conv.matchingFailure => ((vals.length : Int), vals)
  | Directive.hu :: fs, inp, vals =>
    match convUnsigned inp with
    | Conv.ok v rest => scanDirs fs rest (vals ++ [v % 65536])
    | Conv.inputFailure => inputError vals
    | Conv.matchingFailure => ((vals.length : Int), vals)

/-- The call `sscanf(str, fmt, &x0, &x1, ...)`: the return value and the
values stored into `x0, x1, ...` (a pointee that is not stored to keeps its
old value, see `var`). -/
def sscanf (str fmt : List Char) : Int × List Nat :=
  scanDirs (parseFormat fmt) str []

/-- The value of the `i`-th pointee after the call, all pointees being
initialised to `0` in `main`. -/
def var (vals : List Nat) (i : Nat) : Nat := vals.getD i 0

/-! ## The system and the trace -/

/-- What the program does to the outside world, in order. -/
inductive Event where
  | opened (path : List Char) (rc : Int)
  | rawinfo (fd : Int) (rc : Int)
  | feature (fd : Int) (buf : List Nat)
  | closed (fd : Int)
  | perror (what : List Char)
  | usage (hunh : Option (List Char))
  deriving DecidableEq

/-- The operating system as seen by the program; every answer may depend on
the events so far. -/
structure Env where
  /-- Result of `open(path, O_RDWR | O_NONBLOCK)`. -/
  openRc : List Event → List Char → Int
  /-- Result of `ioctl(fd, HIDIOCGRAWINFO, &info)`: return value,
  `info.vendor`, `info.product`. -/
  rawinfoRc : List Event → Int → Int × Nat × Nat
  /-- Result of `ioctl(fd, HIDIOCSFEATURE(9), buf)`. -/
  featureRc : List Event → Int → List Nat → Int

/-- The variables of `main` that live across tokens, and the trace. -/
structure St where
  fd : Int
  log : List Event
  deriving DecidableEq

/-- Either control continues after the statement, or `exit(code)` was called. -/
inductive Run where
  | cont (s : St)
  | exit (code : Int) (s : St)
  deriving DecidableEq

/-- The state in which the statement left the program. -/
def Run.st : Run → St
  | Run.cont s => s
  | Run.exit _ s => s

/-- The exit status when `exit` was called. -/
def Run.status : Run → Option Int
  | Run.cont _ => none
  | Run.exit c _ => some c

/-- The feature reports handed to the device, in order. -/
def sent : List Event → List (List Nat)
  | [] => []
  | Event.feature _ buf :: es => buf :: sent es
  | _ :: es => sent es

/-- Appends an event to the trace. -/
def St.emit (s : St) (e : Event) : St := { s with log := s.log ++ [e] }

/-! ## The functions of the source -/

/-- The function `usage`: prints and calls `exit(1)`. -/
def usage (s : St) (hunh : Option (List Char)) : Run :=
  Run.exit 1 (s.emit (Event.usage hunh))

/-- The `ioctl(fd, HIDIOCSFEATURE(sizeof(buf)), buf)` followed by the
`perror` on a negative result, shared by `color`, `setledn` and `play`. -/
def sendFeature (env : Env) (s : St) (buf : List Nat) : St :=
  let rc := env.featureRc s.log s.fd buf
  let s1 := s.emit (Event.feature s.fd buf)
  if rc < 0 then s1.emit (Event.perror "HIDIOCSFEATURE".toList) else s1

/-- The function `color`.  The parameters are `uint8_t` (`T`: `uint16_t`,
`action`: `char`), so the arguments are narrowed on entry. -/
def color (env : Env) (s : St) (action : Char) (R G B T step led : Nat) : St :=
  if s.fd = -1 then s
  else
    let R := R % 256
    let G := G % 256
    let B := B % 256
    let T := T % 65536
    let step := step % 256
    let led := led % 256
    let buf := List.replicate BLINK1_BUF_SIZE 0
    let step := if step > STEPS - 1 then STEPS - 1 else step
    let led := if led > 2 then 0 else led
    let buf := buf.set 0 1
    let buf := buf.set 1 (action.toNat % 256)
    let buf := buf.set 2 R
    let buf := buf.set 3 G
    let buf := buf.set 4 B
    let buf := buf.set 5 ((T / 256) % 256)
    let buf := buf.set 6 (T % 256)
    let buf := buf.set 7 (if led ≠ 0 then led else step)
    sendFeature env s buf

/-- The function `setledn`, with its `uint8_t` parameter narrowed on entry. -/
def setledn (env : Env) (s : St) (led : Nat) : St :=
  if s.fd = -1 then s
  else
    let led := led % 256
    let buf := List.replicate BLINK1_BUF_SIZE 0
    let buf := buf.set 0 1
    let buf := buf.set 1 ('l'.toNat % 256)
    let buf := buf.set 2 led
    sendFeature env s buf

/-- The function `play`, with its `uint8_t` parameters narrowed on entry. -/
def play (env : Env) (s : St) (action : Char) (play step stop count : Nat) : St :=
  if s.fd = -1 then s
  else
    let play := play % 256
    let step := step % 256
    let stop := stop % 256
    let count := count % 256
    let buf := List.replicate BLINK1_BUF_SIZE 0
    let buf := buf.set 0 1
    let buf := buf.set 1 (action.toNat % 256)
    let buf := buf.set 2 play
    let buf := buf.set 3 step
    let buf := buf.set 4 stop
    let buf := buf.set 5 count
    sendFeature env s buf

/-- The function `isblink1`: the result and the state after the `ioctl`. -/
def isblink1 (env : Env) (s : St) (fd : Int) : Int × St :=
  let r := env.rawinfoRc s.log fd
  let s1 := s.emit (Event.rawinfo fd r.1)
  if r.1 < 0 then (0, s1.emit (Event.perror "HIDIOCGRAWINFO".toList))
  else if r.2.1 = BLINK1_VENDOR_ID ∧ r.2.2 = BLINK1_DEVICE_ID then (1, s1)
  else (0, s1)

/-- The body of the `while` loop of `main` for the argument `arg`: the
`switch` on its first character (`'\0'` for the empty string). -/
def token (env : Env) (s : St) (arg : List Char) : Run :=
  let c := arg.headD (Char.ofNat 0)
  if c = '/' ∨ c = '.' then
    let rc := env.openRc s.log arg
    let s1 := s.emit (Event.opened arg rc)
    if rc < 0 then Run.cont (s1.emit (Event.perror arg))
    else
      let r := isblink1 env s1 rc
      if r.1 ≠ 0 then
        let s2 := if s.fd ≥ 0 then r.2.emit (Event.closed s.fd) else r.2
        Run.cont { s2 with fd := rc }
      else Run.cont r.2
  else if c = '=' then
    let p := sscanf arg "=%hhu,%hhu,%hhu,%hu,%hhu".toList
    let rc := p.1
    let R := var p.2 0
    let G := var p.2 1
    let B := var p.2 2
    let T := var p.2 3
    let led := var p.2 4
    let step := 0
    let step := if rc = 5 then (if step > 2 then 0 else step) else step
    if rc ≠ 5 ∧ rc ≠ 4 then usage s (some arg)
    else Run.cont (color env s 'c' R G B T step led)
  else if c = ':' then
    let p := sscanf arg ":%hhu,%hhu,%hhu".toList
    let rc := p.1
    let R := var p.2 0
    let G := var p.2 1
    let B := var p.2 2
    if rc ≠ 3 then usage s (some arg)
    else Run.cont (color env s 'n' R G B 0 0 0)
  else if c = '@' then
    let p := sscanf arg "@%hhu:%hhu,%hhu,%hhu,%hu,%hhu".toList
    let rc := p.1
    let step := var p.2 0
    let R := var p.2 1
    let G := var p.2 2
    let B := var p.2 3
    let T := var p.2 4
    let led := var p.2 5
    if rc ≠ 6 ∧ rc ≠ 5 then usage s (some arg)
    else
      let led := if rc = 6 then (if led > 2 then 0 else led) else led
      if step > STEPS then usage s (some arg)
      else Run.cont (color env (setledn env s led) 'P' R G B T step 0)
  else if c = '_' then
    let p := sscanf arg "_%hu,%hhu".toList
    let rc := p.1
    let T := var p.2 0
    let led := var p.2 1
    if rc = 1 ∨ rc = 2 then Run.cont (color env s 'c' 0 0 0 T 0 led)
    else if rc = -1 then Run.cont (color env s 'n' 0 0 0 0 0 0)
    else usage s (some arg)
  else if c = '+' then
    let p := sscanf arg "+%hhu,%hhu,%hhu".toList
    let rc := p.1
    let step := var p.2 0
    let stop := var p.2 1
    let count := var p.2 2
    if rc = 3 ∧ (stop < 1 ∨ stop > STEPS + 1) then usage s (some arg)
    else if rc ≠ 3 ∧ rc ≠ 1 then usage s (some arg)
    else if step > STEPS - 1 then usage s (some arg)
    else Run.cont (play env s 'p' 1 step stop count)
  else if c = '-' then
    let p := sscanf arg "-%hhu".toList
    let rc := p.1
    let step := var p.2 0
    let stop := 0
    let count := 0
    if rc = 3 ∧ (stop < 1 ∨ stop > STEPS + 1) then usage s (some arg)
    else if rc ≠ 3 ∧ rc ≠ 1 then usage s (some arg)
    else
      let step := if step > STEPS - 1 then 0 else step
      Run.cont (play env s 'p' 0 step stop count)
  else if c = '%' then
    Run.cont ((List.range (STEPS + 1)).foldl (fun t step => color env t 'P' 0 0 0 0 step 0) s)
  else usage s (some arg)

/-- The `while (++argv, --argc)` loop over the remaining arguments. -/
def loop (env : Env) : St → List (List Char) → Run
  | s, [] => Run.cont s
  | s, arg :: args =>
    match token env s arg with
    | Run.cont s1 => loop env s1 args
    | Run.exit code s1 => Run.exit code s1

/-- The function `main`; `argv` includes the program name, and the result
is the exit status with the final state. -/
def main (env : Env) (argv : List (List Char)) : Run :=
  let s : St := { fd := -1, log := [] }
  if argv.length < 2 then usage s none
  else
    match loop env s argv.tail with
    | Run.cont s1 => Run.exit 0 (s1.emit (Event.closed s1.fd))
    | Run.exit code s1 => Run.exit code s1

/-! ## A concrete system for evaluation -/

/-- A system in which every `open` yields descriptor 3, every device is a
blink(1) and every write succeeds. -/
def env0 : Env :=
  { openRc := fun _ _ => 3
    rawinfoRc := fun _ _ => (0, BLINK1_VENDOR_ID, BLINK1_DEVICE_ID)
    featureRc := fun _ _ _ => 0 }

/-- A state with descriptor 3 selected and an empty trace. -/
def st0 : St := { fd := 3, log := [] }

/-! ## Argument strings

The decimal numerals and the argument strings of the usage text, built from
their numeric fields. -/

/-- The character of the decimal digit `d`. -/
def digitChar (d : Nat) : Char := Char.ofNat (48 + d)

/-- Decimal numeral of `n`, most significant digit first; `fuel` bounds the
number of digits. -/
def decFuel : Nat → Nat → List Char
  | 0, _ => []
  | fuel + 1, n =>
    if n < 10 then [digitChar n] else decFuel fuel (n / 10) ++ [digitChar (n % 10)]

/-- The decimal numeral of `n` without leading zeros. -/
def dec (n : Nat) : List Char := decFuel (n + 1) n

/-- The optional last field `,n` of an argument. -/
def optField : Option Nat → List Char
  | none => []
  | some n => ',' :: dec n

/-- The argument `=R,G,B,t[,n]`. -/
def fadeToken (R G B T : Nat) (led : Option Nat) : List Char :=
  '=' :: (dec R ++ ',' :: (dec G ++ ',' :: (dec B ++ ',' :: (dec T ++ optField led))))

/-- The argument `:R,G,B`. -/
def setToken (R G B : Nat) : List Char :=
  ':' :: (dec R ++ ',' :: (dec G ++ ',' :: dec B))

/-- The argument `@step:R,G,B,t[,n]`. -/
def stepToken (step R G B T : Nat) (led : Option Nat) : List Char :=
  '@' :: (dec step ++ ':' :: (dec R ++ ',' :: (dec G ++ ',' :: (dec B ++ ',' ::
    (dec T ++ optField led)))))

/-- The argument `_t[,n]`. -/
def offToken (T : Nat) (led : Option Nat) : List Char :=
  '_' :: (dec T ++ optField led)

/-- The argument `+step`. -/
def playToken (step : Nat) : List Char := '+' :: dec step

/-- The argument `+step,p` with two fields. -/
def playToken2 (step stop : Nat) : List Char := '+' :: (dec step ++ ',' :: dec stop)

/-- The argument `+step,p,c`. -/
def playToken3 (step stop count : Nat) : List Char :=
  '+' :: (dec step ++ ',' :: (dec stop ++ ',' :: dec count))

/-- The argument `-[step]`. -/
def stopToken : Option Nat → List Char
  | none => ['-']
  | some step => '-' :: dec step

/-- The LED number a `'c'` or `'l'` report carries for the optional field
`n`: the field when it is at most 2, and 0 when it is absent or larger. -/
def ledByte : Option Nat → Nat
  | none => 0
  | some n => if n ≤ 2 then n else 0

/-- The token is processed without `exit`, the descriptor stays selected and
exactly the reports `rs` are handed to the device, in this order. -/
def Emits (env : Env) (s : St) (arg : List Char) (rs : List (List Nat)) : Prop :=
  (token env s arg).status = none ∧ (token env s arg).st.fd = s.fd ∧
    sent (token env s arg).st.log = sent s.log ++ rs

instance (env : Env) (s : St) (arg : List Char) (rs : List (List Nat)) :
    Decidable (Emits env s arg rs) := by
  unfold Emits; infer_instance

/-- The token ends the run in `usage` with exit status 1; nothing but the
usage message is added to the trace, so no report is sent. -/
def Fatal (env : Env) (s : St) (arg : List Char) : Prop :=
  token env s arg = Run.exit 1 (s.emit (Event.usage (some arg)))

instance (env : Env) (s : St) (arg : List Char) : Decidable (Fatal env s arg) := by
  unfold Fatal; infer_instance

/-- The fields of a `'c'`, `'n'` or `'P'` report according to the report
table: opcode, colour, duration and the LED-or-step byte. -/
structure Fields where
  action : Nat
  R : Nat
  G : Nat
  B : Nat
  T : Nat
  ledOrStep : Nat
  deriving DecidableEq

/-- Reads the fields back from the bytes of a report. -/
def decode (r : List Nat) : Fields :=
  { action := r.getD 1 0
    R := r.getD 2 0
    G := r.getD 3 0
    B := r.getD 4 0
    T := r.getD 5 0 * 256 + r.getD 6 0
    ledOrStep := r.getD 7 0 }

/-- A system with failures: `/dev/hidraw0` opens as descriptor 4 and is a
blink(1), `/dev/null` opens as descriptor 5 and is some other device, no
other path can be opened, and every write of a feature report fails. -/
def env1 : Env :=
  { openRc := fun _ path =>
      if path = "/dev/hidraw0".toList then 4 else if path = "/dev/null".toList then 5 else -1
    rawinfoRc := fun _ fd =>
      if fd = 4 then (0, BLINK1_VENDOR_ID, BLINK1_DEVICE_ID)
      else if fd = 5 then (0, 0x046D, 0xC077) else (-1, 0, 0)
    featureRc := fun _ _ _ => -1 }

/-- The state of `main` before the first argument: no device, empty trace. -/
def initSt : St := { fd := -1, log := [] }

/-- The descriptors passed to `close`, in order. -/
def closes : List Event → List Int
  | [] => []
  | Event.closed fd :: es => fd :: closes es
  | _ :: es => closes es

/-- The paths passed to `open`, in order. -/
def opens : List Event → List (List Char)
  | [] => []
  | Event.opened path _ :: es => path :: opens es
  | _ :: es => opens es

/-- The argument is a fatal usage error: processing it calls `usage`.  The
test is run in the system `env0`; `token_status` shows that neither the
system nor the state has an influence on it. -/
def usageError (arg : List Char) : Bool := decide ((token env0 st0 arg).status = some 1)

/-- Byte `i` of a report. -/
def byte (r : List Nat) (i : Nat) : Nat := r.getD i 0

/-- The shape of a report: 9 bytes, report id 1 in byte 0, and zero in every
byte its opcode does not use. -/
def WellFormed (r : List Nat) : Prop :=
  r.length = 9 ∧ byte r 0 = 1 ∧ byte r 8 = 0 ∧
  (byte r 1 = 'n'.toNat → byte r 5 = 0 ∧ byte r 6 = 0 ∧ byte r 7 = 0) ∧
  (byte r 1 = 'l'.toNat → byte r 3 = 0 ∧ byte r 4 = 0 ∧ byte r 5 = 0 ∧ byte r 6 = 0 ∧
    byte r 7 = 0) ∧
  (byte r 1 = 'p'.toNat → byte r 6 = 0 ∧ byte r 7 = 0)

instance (r : List Nat) : Decidable (WellFormed r) := by
  unfold WellFormed; infer_instance

/-- The ranges of the values a report carries: step or LED in byte 7 of a
`'c'`, `'n'` or `'P'` report, the LED in byte 2 of an `'l'` report, start and
stop step in bytes 3 and 4 of a `'p'` report. -/
def InRange (r : List Nat) : Prop :=
  ((byte r 1 = 'c'.toNat ∨ byte r 1 = 'n'.toNat ∨ byte r 1 = 'P'.toNat) → byte r 7 ≤ 31) ∧
  (byte r 1 = 'l'.toNat → byte r 2 ≤ 2) ∧
  (byte r 1 = 'p'.toNat → byte r 3 ≤ 31 ∧ byte r 4 ≤ 33)

instance (r : List Nat) : Decidable (InRange r) := by
  unfold InRange; infer_instance

/-- The state `t` arises from `s` by appending events to the trace, and every
report among the appended events satisfies `P`. -/
def Extends (P : List Nat → Prop) (s t : St) : Prop :=
  ∃ evs, t.log = s.log ++ evs ∧ ∀ r ∈ sent evs, P r

/-- The state after the arguments `args` have been processed one after the
other by `token`, each from the state its predecessor left, whether or not
one of them called `exit`.  It states what "processed in order" means and
does not mention `loop`. -/
def processed (env : Env) (s : St) (args : List (List Char)) : St :=
  args.foldl (fun t a => (token env t a).st) s

/-- Follows the spec's grammar table: the forms of an argument, by their
fields.  Next to the forms of the table there are the malformed ones that
lack a required field (`=R,G,B`, `:R,G`, `@step:R,G,B`, `+step,stop`, a
prefix character alone, `_` followed by something that is not a number).
The bare `-` is not among the forms. -/
inductive SpecToken where
  | path (p : List Char)
  | fade (R G B T : Nat) (led : Option Nat)
  | fadeShort (R G B : Nat)
  | setNow (R G B : Nat)
  | setShort (R G : Nat)
  | program (step R G B T : Nat) (led : Option Nat)
  | programShort (step R G B : Nat)
  | off (T : Nat) (led : Option Nat)
  | offNow
  | offJunk (c : Char) (rest : List Char)
  | play (step : Nat)
  | play2 (step stop : Nat)
  | play3 (step stop count : Nat)
  | stop (step : Nat)
  | clear
  | bare (c : Char)
  | other (s : List Char)
  deriving DecidableEq

/-- The argument string of a form. -/
def SpecToken.render : SpecToken → List Char
  | SpecToken.path p => p
  | SpecToken.fade R G B T led => fadeToken R G B T led
  | SpecToken.fadeShort R G B => '=' :: (dec R ++ ',' :: (dec G ++ ',' :: dec B))
  | SpecToken.setNow R G B => setToken R G B
  | SpecToken.setShort R G => ':' :: (dec R ++ ',' :: dec G)
  | SpecToken.program step R G B T led => stepToken step R G B T led
  | SpecToken.programShort step R G B =>
    '@' :: (dec step ++ ':' :: (dec R ++ ',' :: (dec G ++ ',' :: dec B)))
  | SpecToken.off T led => offToken T led
  | SpecToken.offNow => ['_']
  | SpecToken.offJunk c rest => '_' :: c :: rest
  | SpecToken.play step => playToken step
  | SpecToken.play2 step last => playToken2 step last
  | SpecToken.play3 step last count => playToken3 step last count
  | SpecToken.stop step => stopToken (some step)
  | SpecToken.clear => ['%']
  | SpecToken.bare c => [c]
  | SpecToken.other s => s

/-- The forms the exit-status theorem speaks about: every numeric field is in
the range of the C type it is scanned into (a byte, 16 bits for `T`), a path
starts with `/` or `.`, `other` starts with none of the nine known
characters, and the step of `@` is not 32 (the value on which the check of
the `@` case and the usage text disagree). -/
def SpecToken.inDomain : SpecToken → Bool
  | SpecToken.path p => decide (p.headD (Char.ofNat 0) = '/' ∨ p.headD (Char.ofNat 0) = '.')
  | SpecToken.fade R G B T led =>
    decide (R ≤ 255 ∧ G ≤ 255 ∧ B ≤ 255 ∧ T ≤ 65535 ∧ led.getD 0 ≤ 255)
  | SpecToken.fadeShort R G B => decide (R ≤ 255 ∧ G ≤ 255 ∧ B ≤ 255)
  | SpecToken.setNow R G B => decide (R ≤ 255 ∧ G ≤ 255 ∧ B ≤ 255)
  | SpecToken.setShort R G => decide (R ≤ 255 ∧ G ≤ 255)
  | SpecToken.program step R G B T led =>
    decide (step ≤ 255 ∧ step ≠ 32 ∧ R ≤ 255 ∧ G ≤ 255 ∧ B ≤ 255 ∧ T ≤ 65535 ∧
      led.getD 0 ≤ 255)
  | SpecToken.programShort step R G B => decide (step ≤ 255 ∧ R ≤ 255 ∧ G ≤ 255 ∧ B ≤ 255)
  | SpecToken.off T led => decide (T ≤ 65535 ∧ led.getD 0 ≤ 255)
  | SpecToken.offNow => true
  | SpecToken.offJunk c _ =>
    decide (isspace c = false ∧ isdigit c = false ∧ c ≠ '+' ∧ c ≠ '-')
  | SpecToken.play step => decide (step ≤ 255)
  | SpecToken.play2 step last => decide (step ≤ 255 ∧ last ≤ 255)
  | SpecToken.play3 step last count => decide (step ≤ 255 ∧ last ≤ 255 ∧ count ≤ 255)
  | SpecToken.stop step => decide (step ≤ 255)
  | SpecToken.clear => true
  | SpecToken.bare c => decide (c = '=' ∨ c = ':' ∨ c = '@' ∨ c = '+')
  | SpecToken.other s =>
    decide (∀ c ∈ ['/', '.', '=', ':', '@', '_', '+', '-', '%'], s.headD (Char.ofNat 0) ≠ c)

/-- Follows the spec's validation policy: the forms that are fatal usage
errors, namely an unrecognised first character, a missing required field, a
step above 31 in `@` and `+`, and a stop index outside [1,33] in the
three-field `+`. -/
def SpecToken.fatal : SpecToken → Bool
  | SpecToken.path _ => false
  | SpecToken.fade _ _ _ _ _ => false
  | SpecToken.fadeShort _ _ _ => true
  | SpecToken.setNow _ _ _ => false
  | SpecToken.setShort _ _ => true
  | SpecToken.program step _ _ _ _ _ => decide (31 < step)
  | SpecToken.programShort _ _ _ _ => true
  | SpecToken.off _ _ => false
  | SpecToken.offNow => false
  | SpecToken.offJunk _ _ => true
  | SpecToken.play step => decide (31 < step)
  | SpecToken.play2 _ _ => true
  | SpecToken.play3 step last _ => decide (31 < step ∨ last < 1 ∨ 33 < last)
  | SpecToken.stop _ => false
  | SpecToken.clear => false
  | SpecToken.bare _ => true
  | SpecToken.other _ => true

/-! ## Lemmas on numerals and conversions -/

/-- A list on which `readDigits` stops at once. -/
def stops : List Char → Bool
  | [] => true
  | c :: _ => !isdigit c

/-- One step of the accumulation in `readDigits`. -/
def digitStep (acc : Nat) (c : Char) : Nat := acc * 10 + (c.toNat - 48)

theorem digitChar_toNat (d : Nat) (h : d < 10) : (digitChar d).toNat = 48 + d := by
  interval_cases d <;> rfl

theorem isdigit_digitChar (d : Nat) (h : d < 10) : isdigit (digitChar d) = true := by
  simp [isdigit, digitChar_toNat d h]; omega

theorem isspace_of_isdigit (c : Char) (h : isdigit c = true) : isspace c = false := by
  simp [isdigit] at h
  simp [isspace]; omega

theorem ne_minus_of_isdigit (c : Char) (h : isdigit c = true) : c ≠ '-' := by
  rintro rfl; revert h; decide

theorem ne_plus_of_isdigit (c : Char) (h : isdigit c = true) : c ≠ '+' := by
  rintro rfl; revert h; decide

theorem readDigits_append (l rest : List Char) (acc : Nat)
    (hl : ∀ c ∈ l, isdigit c = true) :
    readDigits (l ++ rest) acc = readDigits rest (l.foldl digitStep acc) := by
  induction l generalizing acc with
  | nil => rfl
  | cons c cs ih =>
    have hc : isdigit c = true := hl c (List.mem_cons_self c cs)
    have hcs : ∀ x ∈ cs, isdigit x = true := fun x hx => hl x (List.mem_cons_of_mem c hx)
    simp only [List.cons_append, readDigits, hc, if_true, List.foldl_cons]
    exact ih _ hcs

theorem readDigits_stops (rest : List Char) (acc : Nat) (h : stops rest = true) :
    readDigits rest acc = (acc, rest) := by
  cases rest with
  | nil => rfl
  | cons c cs =>
    have hc : isdigit c = false := by simpa [stops] using h
    simp [readDigits, hc]

theorem decFuel_digits (fuel : Nat) : ∀ n, n < fuel → ∀ c ∈ decFuel fuel n, isdigit c = true := by
  induction fuel with
  | zero => intro n h; omega
  | succ f ih =>
    intro n h c hc
    unfold decFuel at hc
    split at hc
    · rename_i h10
      simp only [List.mem_singleton] at hc
      subst hc
      exact isdigit_digitChar n h10
    · rcases List.mem_append.mp hc with h1 | h1
      · exact ih (n / 10) (by omega) c h1
      · simp only [List.mem_singleton] at h1
        subst h1
        exact isdigit_digitChar _ (Nat.mod_lt _ (by decide))

theorem decFuel_ne_nil (fuel n : Nat) (h : n < fuel) : decFuel fuel n ≠ [] := by
  cases fuel with
  | zero => omega
  | succ f =>
    unfold decFuel
    split <;> simp

theorem decFuel_value (fuel : Nat) : ∀ n, n < fuel → (decFuel fuel n).foldl digitStep 0 = n := by
  induction fuel with
  | zero => intro n h; omega
  | succ f ih =>
    intro n h
    unfold decFuel
    split
    · rename_i h10
      simp [digitStep, digitChar_toNat n h10]
    · rw [List.foldl_append, ih (n / 10) (by omega)]
      simp [digitStep, digitChar_toNat (n % 10) (Nat.mod_lt _ (by decide))]
      omega

theorem convUnsigned_numeral (l rest : List Char) (hne : l ≠ [])
    (hl : ∀ c ∈ l, isdigit c = true) (hs : stops rest = true) :
    convUnsigned (l ++ rest) = Conv.ok (strtoul false (l.foldl digitStep 0)) rest := by
  cases l with
  | nil => exact absurd rfl hne
  | cons d ds =>
    have hd : isdigit d = true := hl d (List.mem_cons_self d ds)
    have h1 := isspace_of_isdigit d hd
    have h2 := ne_minus_of_isdigit d hd
    have h3 := ne_plus_of_isdigit d hd
    have h4 := readDigits_append (d :: ds) rest 0 hl
    rw [readDigits_stops rest _ hs] at h4
    simp only [List.cons_append] at h4
    simp [convUnsigned, skipSpace, h1, h2, h3, hd, h4]

theorem convUnsigned_dec (n : Nat) (rest : List Char) (hn : n < 65536)
    (hs : stops rest = true) : convUnsigned (dec n ++ rest) = Conv.ok n rest := by
  have h := convUnsigned_numeral (dec n) rest (decFuel_ne_nil _ _ (Nat.lt_succ_self n))
    (decFuel_digits _ n (Nat.lt_succ_self n)) hs
  have hv : (dec n).foldl digitStep 0 = n := decFuel_value _ n (Nat.lt_succ_self n)
  rw [h, hv]
  simp [strtoul, ULONG_MAX]
  omega

theorem convUnsigned_dec_nil (n : Nat) (hn : n < 65536) :
    convUnsigned (dec n) = Conv.ok n [] := by
  have h := convUnsigned_dec n [] hn rfl
  simpa using h

/-! ## Lemmas on the reports of `color`, `setledn` and `play` -/

theorem sent_append (l1 l2 : List Event) : sent (l1 ++ l2) = sent l1 ++ sent l2 := by
  induction l1 with
  | nil => rfl
  | cons e es ih => cases e <;> simp [sent, ih]

theorem sendFeature_fd (env : Env) (s : St) (buf : List Nat) :
    (sendFeature env s buf).fd = s.fd := by
  simp only [sendFeature]
  split <;> rfl

theorem sendFeature_sent (env : Env) (s : St) (buf : List Nat) :
    sent (sendFeature env s buf).log = sent s.log ++ [buf] := by
  simp only [sendFeature]
  split <;> simp [St.emit, sent_append, sent]

theorem color_fd (env : Env) (s : St) (action : Char) (R G B T step led : Nat) :
    (color env s action R G B T step led).fd = s.fd := by
  unfold color
  split
  · rfl
  · exact sendFeature_fd _ _ _

theorem color_sent (env : Env) (s : St) (action : Char) (R G B T step led : Nat)
    (hfd : s.fd ≠ -1) (hR : R < 256) (hG : G < 256) (hB : B < 256) (hT : T < 65536)
    (hstep : step < 256) (hled : led < 256) :
    sent (color env s action R G B T step led).log = sent s.log ++
      [[1, action.toNat % 256, R, G, B, T / 256, T % 256,
        if 1 ≤ led ∧ led ≤ 2 then led else min step 31, 0]] := by
  unfold color
  rw [if_neg hfd]
  simp only [sendFeature_sent, Nat.mod_eq_of_lt hR, Nat.mod_eq_of_lt hG, Nat.mod_eq_of_lt hB,
    Nat.mod_eq_of_lt hT, Nat.mod_eq_of_lt hstep, Nat.mod_eq_of_lt hled]
  have h5 : T / 256 % 256 = T / 256 := by omega
  have h7 : (if (if led > 2 then 0 else led) ≠ 0 then (if led > 2 then 0 else led)
      else (if step > STEPS - 1 then STEPS - 1 else step)) =
      if 1 ≤ led ∧ led ≤ 2 then led else min step 31 := by
    simp only [STEPS]
    split_ifs <;> omega
  rw [h5, ← h7]
  rfl

theorem setledn_fd (env : Env) (s : St) (led : Nat) : (setledn env s led).fd = s.fd := by
  unfold setledn
  split
  · rfl
  · exact sendFeature_fd _ _ _

theorem setledn_sent (env : Env) (s : St) (led : Nat) (hfd : s.fd ≠ -1) (hled : led < 256) :
    sent (setledn env s led).log = sent s.log ++ [[1, 'l'.toNat, led, 0, 0, 0, 0, 0, 0]] := by
  unfold setledn
  rw [if_neg hfd]
  simp only [sendFeature_sent, Nat.mod_eq_of_lt hled]
  rfl

theorem play_fd (env : Env) (s : St) (action : Char) (p step stop count : Nat) :
    (play env s action p step stop count).fd = s.fd := by
  unfold play
  split
  · rfl
  · exact sendFeature_fd _ _ _

theorem play_sent (env : Env) (s : St) (action : Char) (p step stop count : Nat)
    (hfd : s.fd ≠ -1) (hp : p < 256) (hstep : step < 256) (hstop : stop < 256)
    (hcount : count < 256) :
    sent (play env s action p step stop count).log = sent s.log ++
      [[1, action.toNat % 256, p, step, stop, count, 0, 0, 0]] := by
  unfold play
  rw [if_neg hfd]
  simp only [sendFeature_sent, Nat.mod_eq_of_lt hp, Nat.mod_eq_of_lt hstep,
    Nat.mod_eq_of_lt hstop, Nat.mod_eq_of_lt hcount]
  rfl

/-! ## What `sscanf` returns on the argument strings -/

theorem stops_comma (l : List Char) : stops (',' :: l) = true := rfl

theorem stops_colon (l : List Char) : stops (':' :: l) = true := rfl

theorem parseFormat_fade : parseFormat "=%hhu,%hhu,%hhu,%hu,%hhu".toList =
    [Directive.lit '=', Directive.hhu, Directive.lit ',', Directive.hhu, Directive.lit ',',
      Directive.hhu, Directive.lit ',', Directive.hu, Directive.lit ',', Directive.hhu] := by
  decide

theorem parseFormat_step : parseFormat "@%hhu:%hhu,%hhu,%hhu,%hu,%hhu".toList =
    [Directive.lit '@', Directive.hhu, Directive.lit ':', Directive.hhu, Directive.lit ',',
      Directive.hhu, Directive.lit ',', Directive.hhu, Directive.lit ',', Directive.hu,
      Directive.lit ',', Directive.hhu] := by
  decide

theorem parseFormat_off : parseFormat "_%hu,%hhu".toList =
    [Directive.lit '_', Directive.hu, Directive.lit ',', Directive.hhu] := by
  decide

theorem parseFormat_play : parseFormat "+%hhu,%hhu,%hhu".toList =
    [Directive.lit '+', Directive.hhu, Directive.lit ',', Directive.hhu, Directive.lit ',',
      Directive.hhu] := by
  decide

theorem parseFormat_stop : parseFormat "-%hhu".toList =
    [Directive.lit '-', Directive.hhu] := by
  decide

theorem sscanf_stepToken (step R G B T : Nat) (led : Option Nat)
    (hstep : step < 256) (hR : R < 256) (hG : G < 256) (hB : B < 256) (hT : T < 65536)
    (hled : led.getD 0 < 256) :
    sscanf (stepToken step R G B T led) "@%hhu:%hhu,%hhu,%hhu,%hu,%hhu".toList =
      match led with
      | none => (5, [step, R, G, B, T])
      | some n => (6, [step, R, G, B, T, n]) := by
  have hstep2 : step < 65536 := by omega
  have hR2 : R < 65536 := by omega
  have hG2 : G < 65536 := by omega
  have hB2 : B < 65536 := by omega
  unfold sscanf
  rw [parseFormat_step]
  cases led with
  | none =>
    simp [stepToken, optField, scanDirs, convUnsigned_dec, convUnsigned_dec_nil, stops_comma,
      stops_colon, inputError, *, Nat.mod_eq_of_lt]
  | some n =>
    have hn : n < 256 := by simpa using hled
    have hn2 : n < 65536 := by omega
    simp [stepToken, optField, scanDirs, convUnsigned_dec, convUnsigned_dec_nil, stops_comma,
      stops_colon, inputError, *, Nat.mod_eq_of_lt]

theorem sscanf_fadeToken (R G B T : Nat) (led : Option Nat)
    (hR : R < 256) (hG : G < 256) (hB : B < 256) (hT : T < 65536)
    (hled : led.getD 0 < 256) :
    sscanf (fadeToken R G B T led) "=%hhu,%hhu,%hhu,%hu,%hhu".toList =
      match led with
      | none => (4, [R, G, B, T])
      | some n => (5, [R, G, B, T, n]) := by
  have hR2 : R < 65536 := by omega
  have hG2 : G < 65536 := by omega
  have hB2 : B < 65536 := by omega
  unfold sscanf
  rw [parseFormat_fade]
  cases led with
  | none =>
    simp [fadeToken, optField, scanDirs, convUnsigned_dec, convUnsigned_dec_nil, stops_comma,
      inputError, *, Nat.mod_eq_of_lt]
  | some n =>
    have hn : n < 256 := by simpa using hled
    have hn2 : n < 65536 := by omega
    simp [fadeToken, optField, scanDirs, convUnsigned_dec, convUnsigned_dec_nil, stops_comma,
      inputError, *, Nat.mod_eq_of_lt]

theorem sscanf_offToken (T : Nat) (led : Option Nat) (hT : T < 65536)
    (hled : led.getD 0 < 256) :
    sscanf (offToken T led) "_%hu,%hhu".toList =
      match led with
      | none => (1, [T])
      | some n => (2, [T, n]) := by
  unfold sscanf
  rw [parseFormat_off]
  cases led with
  | none =>
    simp [offToken, optField, scanDirs, convUnsigned_dec, convUnsigned_dec_nil, stops_comma,
      inputError, *, Nat.mod_eq_of_lt]
  | some n =>
    have hn : n < 256 := by simpa using hled
    have hn2 : n < 65536 := by omega
    simp [offToken, optField, scanDirs, convUnsigned_dec, convUnsigned_dec_nil, stops_comma,
      inputError, *, Nat.mod_eq_of_lt]

theorem sscanf_playToken (step : Nat) (hstep : step < 256) :
    sscanf (playToken step) "+%hhu,%hhu,%hhu".toList = (1, [step]) := by
  have hstep2 : step < 65536 := by omega
  unfold sscanf
  rw [parseFormat_play]
  simp [playToken, scanDirs, convUnsigned_dec_nil, inputError, *, Nat.mod_eq_of_lt]

theorem sscanf_playToken2 (step stop : Nat) (hstep : step < 256) (hstop : stop < 256) :
    sscanf (playToken2 step stop) "+%hhu,%hhu,%hhu".toList = (2, [step, stop]) := by
  have hstep2 : step < 65536 := by omega
  have hstop2 : stop < 65536 := by omega
  unfold sscanf
  rw [parseFormat_play]
  simp [playToken2, scanDirs, convUnsigned_dec, convUnsigned_dec_nil, stops_comma, inputError,
    *, Nat.mod_eq_of_lt]

theorem sscanf_playToken3 (step stop count : Nat) (hstep : step < 256) (hstop : stop < 256)
    (hcount : count < 256) :
    sscanf (playToken3 step stop count) "+%hhu,%hhu,%hhu".toList = (3, [step, stop, count]) := by
  have hstep2 : step < 65536 := by omega
  have hstop2 : stop < 65536 := by omega
  have hcount2 : count < 65536 := by omega
  unfold sscanf
  rw [parseFormat_play]
  simp [playToken3, scanDirs, convUnsigned_dec, convUnsigned_dec_nil, stops_comma, inputError,
    *, Nat.mod_eq_of_lt]

theorem sscanf_stopToken (step : Nat) (hstep : step < 256) :
    sscanf (stopToken (some step)) "-%hhu".toList = (1, [step]) := by
  have hstep2 : step < 65536 := by omega
  unfold sscanf
  rw [parseFormat_stop]
  simp [stopToken, scanDirs, convUnsigned_dec_nil, inputError, *, Nat.mod_eq_of_lt]

theorem skipSpace_spaces (ws : List Char) (h : ∀ c ∈ ws, isspace c = true) :
    skipSpace ws = [] := by
  induction ws with
  | nil => rfl
  | cons c cs ih =>
    have hc : isspace c = true := h c (List.mem_cons_self c cs)
    simp only [skipSpace, hc, if_true]
    exact ih (fun x hx => h x (List.mem_cons_of_mem c hx))

theorem sscanf_off_spaces (ws : List Char) (h : ∀ c ∈ ws, isspace c = true) :
    sscanf ('_' :: ws) "_%hu,%hhu".toList = (-1, []) := by
  unfold sscanf
  rw [parseFormat_off]
  simp [scanDirs, convUnsigned, skipSpace_spaces ws h, inputError, EOF]

/-! ## The token equations -/

theorem token_fade (env : Env) (s : St) (R G B T : Nat) (led : Option Nat)
    (hR : R < 256) (hG : G < 256) (hB : B < 256) (hT : T < 65536) (hled : led.getD 0 < 256) :
    token env s (fadeToken R G B T led) = Run.cont (color env s 'c' R G B T 0 (led.getD 0)) := by
  have hsc := sscanf_fadeToken R G B T led hR hG hB hT hled
  have hhead : (fadeToken R G B T led).headD (Char.ofNat 0) = '=' := rfl
  unfold token
  simp only [hhead, hsc]
  cases led <;> simp +decide [var]

theorem token_step (env : Env) (s : St) (step R G B T : Nat) (led : Option Nat)
    (hstep : step ≤ 32) (hR : R < 256) (hG : G < 256) (hB : B < 256) (hT : T < 65536)
    (hled : led.getD 0 < 256) :
    token env s (stepToken step R G B T led) =
      Run.cont (color env (setledn env s (ledByte led)) 'P' R G B T step 0) := by
  have hsc := sscanf_stepToken step R G B T led (by omega) hR hG hB hT hled
  have hhead : (stepToken step R G B T led).headD (Char.ofNat 0) = '@' := rfl
  have h32 : ¬ (32 < step) := by omega
  unfold token
  simp only [hhead, hsc]
  cases led with
  | none => simp +decide [var, STEPS, ledByte, h32]
  | some n =>
    simp +decide [var, STEPS, ledByte, h32]
    split_ifs <;> first | rfl | omega

theorem token_step_fatal (env : Env) (s : St) (step R G B T : Nat) (led : Option Nat)
    (hstep : 32 < step) (hstep2 : step < 256) (hR : R < 256) (hG : G < 256) (hB : B < 256)
    (hT : T < 65536) (hled : led.getD 0 < 256) :
    token env s (stepToken step R G B T led) =
      usage s (some (stepToken step R G B T led)) := by
  have hsc := sscanf_stepToken step R G B T led hstep2 hR hG hB hT hled
  have hhead : (stepToken step R G B T led).headD (Char.ofNat 0) = '@' := rfl
  unfold token
  simp only [hhead, hsc]
  cases led <;> simp +decide [var, STEPS, hstep]

theorem token_off (env : Env) (s : St) (T : Nat) (led : Option Nat)
    (hT : T < 65536) (hled : led.getD 0 < 256) :
    token env s (offToken T led) = Run.cont (color env s 'c' 0 0 0 T 0 (led.getD 0)) := by
  have hsc := sscanf_offToken T led hT hled
  have hhead : (offToken T led).headD (Char.ofNat 0) = '_' := rfl
  unfold token
  simp only [hhead, hsc]
  cases led <;> simp +decide [var]

theorem token_off_spaces (env : Env) (s : St) (ws : List Char)
    (h : ∀ c ∈ ws, isspace c = true) :
    token env s ('_' :: ws) = Run.cont (color env s 'n' 0 0 0 0 0 0) := by
  have hsc := sscanf_off_spaces ws h
  unfold token
  simp only [List.headD_cons, hsc]
  simp +decide

theorem skipSpace_spaces_append (ws : List Char) (c : Char) (rest : List Char)
    (h : ∀ x ∈ ws, isspace x = true) (hc : isspace c = false) :
    skipSpace (ws ++ c :: rest) = c :: rest := by
  induction ws with
  | nil => simp [skipSpace, hc]
  | cons x xs ih =>
    have hx : isspace x = true := h x (List.mem_cons_self x xs)
    simp only [List.cons_append, skipSpace, hx, if_true]
    exact ih (fun y hy => h y (List.mem_cons_of_mem x hy))

theorem token_off_garbage (env : Env) (s : St) (ws : List Char) (c : Char) (rest : List Char)
    (hws : ∀ x ∈ ws, isspace x = true) (h1 : isspace c = false) (h2 : isdigit c = false)
    (h3 : c ≠ '+') (h4 : c ≠ '-') :
    token env s ('_' :: (ws ++ c :: rest)) = usage s (some ('_' :: (ws ++ c :: rest))) := by
  have hsc : sscanf ('_' :: (ws ++ c :: rest)) "_%hu,%hhu".toList = (0, []) := by
    unfold sscanf
    rw [parseFormat_off]
    simp [scanDirs, convUnsigned, skipSpace_spaces_append ws c rest hws h1, h2, h3, h4]
  unfold token
  simp only [List.headD_cons, hsc]
  simp +decide

theorem token_play (env : Env) (s : St) (step : Nat) (hstep : step ≤ 31) :
    token env s (playToken step) = Run.cont (play env s 'p' 1 step 0 0) := by
  have hsc := sscanf_playToken step (by omega)
  have hhead : (playToken step).headD (Char.ofNat 0) = '+' := rfl
  have h31 : ¬ (31 < step) := by omega
  unfold token
  simp only [hhead, hsc]
  simp +decide [var, STEPS, h31]

theorem token_play3 (env : Env) (s : St) (step stop count : Nat) (hstep : step ≤ 31)
    (hstop1 : 1 ≤ stop) (hstop2 : stop ≤ 33) (hcount : count < 256) :
    token env s (playToken3 step stop count) = Run.cont (play env s 'p' 1 step stop count) := by
  have hsc := sscanf_playToken3 step stop count (by omega) (by omega) hcount
  have hhead : (playToken3 step stop count).headD (Char.ofNat 0) = '+' := rfl
  have h31 : ¬ (31 < step) := by omega
  have h33 : ¬ (33 < stop) := by omega
  have h1 : ¬ (stop = 0) := by omega
  unfold token
  simp only [hhead, hsc]
  simp +decide [var, STEPS, h31, h33, h1]

theorem token_play_fatal (env : Env) (s : St) (step : Nat) (hstep : 31 < step)
    (hstep2 : step < 256) :
    token env s (playToken step) = usage s (some (playToken step)) := by
  have hsc := sscanf_playToken step hstep2
  have hhead : (playToken step).headD (Char.ofNat 0) = '+' := rfl
  unfold token
  simp only [hhead, hsc]
  simp +decide [var, STEPS, hstep]

theorem token_play2_fatal (env : Env) (s : St) (step stop : Nat) (hstep : step < 256)
    (hstop : stop < 256) :
    token env s (playToken2 step stop) = usage s (some (playToken2 step stop)) := by
  have hsc := sscanf_playToken2 step stop hstep hstop
  have hhead : (playToken2 step stop).headD (Char.ofNat 0) = '+' := rfl
  unfold token
  simp only [hhead, hsc]
  simp +decide [var, STEPS]

theorem token_play3_fatal (env : Env) (s : St) (step stop count : Nat) (hstep : step < 256)
    (hstop : stop < 256) (hcount : count < 256)
    (hbad : 31 < step ∨ stop < 1 ∨ 33 < stop) :
    token env s (playToken3 step stop count) =
      usage s (some (playToken3 step stop count)) := by
  have hsc := sscanf_playToken3 step stop count hstep hstop hcount
  have hhead : (playToken3 step stop count).headD (Char.ofNat 0) = '+' := rfl
  unfold token
  simp only [hhead, hsc]
  simp +decide [var, STEPS]
  intro h1 h2 h3
  omega

theorem token_stop (env : Env) (s : St) (step : Nat) (hstep : step < 256) :
    token env s (stopToken (some step)) =
      Run.cont (play env s 'p' 0 (if step > 31 then 0 else step) 0 0) := by
  have hsc := sscanf_stopToken step hstep
  have hhead : (stopToken (some step)).headD (Char.ofNat 0) = '-' := rfl
  unfold token
  simp only [hhead, hsc]
  simp +decide [var, STEPS]

theorem token_clear (env : Env) (s : St) :
    token env s ['%'] = Run.cont ((List.range (STEPS + 1)).foldl
      (fun t step => color env t 'P' 0 0 0 0 step 0) s) := by
  rfl

theorem clear_fold (env : Env) (l : List Nat) :
    ∀ s : St, s.fd ≠ -1 → (∀ i ∈ l, i < 256) →
      (l.foldl (fun t step => color env t 'P' 0 0 0 0 step 0) s).fd = s.fd ∧
      sent (l.foldl (fun t step => color env t 'P' 0 0 0 0 step 0) s).log =
        sent s.log ++ l.map (fun i => [1, 'P'.toNat, 0, 0, 0, 0, 0, min i 31, 0]) := by
  induction l with
  | nil => intro s _ _; simp
  | cons i is ih =>
    intro s hfd hl
    have hi : i < 256 := hl i (List.mem_cons_self i is)
    have hfd1 : (color env s 'P' 0 0 0 0 i 0).fd ≠ -1 := by rw [color_fd]; exact hfd
    have h := ih (color env s 'P' 0 0 0 0 i 0) hfd1
      (fun j hj => hl j (List.mem_cons_of_mem i hj))
    rw [List.foldl_cons, h.1, h.2, color_fd,
      color_sent env s 'P' 0 0 0 0 i 0 hfd (by omega) (by omega) (by omega) (by omega) hi
        (by omega)]
    refine ⟨rfl, ?_⟩
    simp

theorem emits_of_cont (env : Env) (s t : St) (arg : List Char) (rs : List (List Nat))
    (h : token env s arg = Run.cont t) (hfd : t.fd = s.fd)
    (hs : sent t.log = sent s.log ++ rs) : Emits env s arg rs := by
  unfold Emits
  rw [h]
  exact ⟨rfl, hfd, hs⟩

theorem fatal_of_usage (env : Env) (s : St) (arg : List Char)
    (h : token env s arg = usage s (some arg)) : Fatal env s arg := by
  unfold Fatal
  rw [h]
  rfl

theorem stop_report (env : Env) (s : St) (step : Nat) (hfd : s.fd ≠ -1) (hstep : step ≤ 255) :
    Emits env s (stopToken (some step))
      [[1, 'p'.toNat, 0, if step ≤ 31 then step else 0, 0, 0, 0, 0, 0]] := by
  have htok := token_stop env s step (by omega)
  refine emits_of_cont env s _ _ _ htok (play_fd _ _ _ _ _ _ _) ?_
  rw [play_sent env s 'p' 0 _ 0 0 hfd (by omega) (by split_ifs <;> omega) (by omega) (by omega)]
  have h : (if step > 31 then 0 else step) = if step ≤ 31 then step else 0 := by
    split_ifs <;> omega
  rw [h]
  rfl

/-! ## The claims -/

/-- C1, refuted as stated: for `%` with a device selected, the step bytes
(byte 7) of the reports sent are not `0, 1, ..., 32`. -/
theorem clear_step_bytes_not_0_to_32 :
    (sent (token env0 st0 ['%']).st.log).map (fun r => r.getD 7 0) ≠ List.range 33 := by
  decide

/-- C1, amended: with a device selected, `%` sends exactly 33 reports, each
with opcode `'P'`, zero colour and duration 0; byte 7 of the `i`-th report
(`i = 0, ..., 32`) is `min i 31`, that is `0, 1, ..., 31` in ascending order
followed by a second `31`. -/
theorem clear_reports (env : Env) (s : St) (hfd : s.fd ≠ -1) :
    Emits env s ['%']
      ((List.range 33).map (fun i => [1, 'P'.toNat, 0, 0, 0, 0, 0, min i 31, 0])) := by
  have h := clear_fold env (List.range (STEPS + 1)) s hfd
    (fun i hi => by
      have := List.mem_range.mp hi
      simp only [STEPS] at this
      omega)
  exact emits_of_cont env s _ _ _ (token_clear env s) h.1 h.2

/-- Witness of `clear_reports` in the system `env0`. -/
theorem clear_reports_witness :
    Emits env0 st0 ['%']
      ((List.range 33).map (fun i => [1, 'P'.toNat, 0, 0, 0, 0, 0, min i 31, 0])) :=
  clear_reports env0 st0 (by decide)

/-- C2, the code at the failing input: `@40:10,20,30,500` ends the run in
`usage`, but `@32:10,20,30,500`, whose step is also greater than 31, is
accepted and two reports are sent, the `'P'` report carrying step 31. -/
theorem step_32_not_fatal :
    Fatal env0 st0 "@40:10,20,30,500".toList ∧
    Emits env0 st0 "@32:10,20,30,500".toList
      [[1, 'l'.toNat, 0, 0, 0, 0, 0, 0, 0], [1, 'P'.toNat, 10, 20, 30, 1, 244, 31, 0]] := by
  decide

/-- C3, refuted as stated: the accepted token `@32:10,20,30,500` does not
send a `'P'` report whose byte 7 is the step 32. -/
theorem step_32_report_not_step :
    ¬ Emits env0 st0 (stepToken 32 10 20 30 500 none)
      [[1, 'l'.toNat, 0, 0, 0, 0, 0, 0, 0],
       [1, 'P'.toNat, 10, 20, 30, 500 / 256, 500 % 256, 32, 0]] := by
  decide

/-- C3, amended: with a device selected, every token `@step:R,G,B,T[,led]`
with step at most 31 (and R, G, B, led bytes, T a 16-bit value) is accepted
and sends exactly two reports: first `[1,'l',L,0,0,0,0,0,0]`, where `L` is
led when led is at most 2 and 0 when led is absent or greater than 2, then
`[1,'P',R,G,B,T div 256,T mod 256,step,0]`. -/
theorem step_reports (env : Env) (s : St) (step R G B T : Nat) (led : Option Nat)
    (hfd : s.fd ≠ -1) (hstep : step ≤ 31) (hR : R ≤ 255) (hG : G ≤ 255) (hB : B ≤ 255)
    (hT : T ≤ 65535) (hled : led.getD 0 ≤ 255) :
    Emits env s (stepToken step R G B T led)
      [[1, 'l'.toNat, ledByte led, 0, 0, 0, 0, 0, 0],
       [1, 'P'.toNat, R, G, B, T / 256, T % 256, step, 0]] := by
  have htok := token_step env s step R G B T led (by omega) (by omega) (by omega) (by omega)
    (by omega) (by omega)
  have hL : ledByte led < 256 := by
    cases led with
    | none => simp [ledByte]
    | some n => simp only [ledByte]; split_ifs <;> omega
  have hfd1 : (setledn env s (ledByte led)).fd ≠ -1 := by rw [setledn_fd]; exact hfd
  refine emits_of_cont env s _ _ _ htok ?_ ?_
  · rw [color_fd, setledn_fd]
  · rw [color_sent env _ 'P' R G B T step 0 hfd1 (by omega) (by omega) (by omega) (by omega)
      (by omega) (by omega), setledn_sent env s _ hfd hL, List.append_assoc]
    have h7 : min step 31 = step := by omega
    simp [h7]

/-- Witness of `step_reports`: the token `@31:10,20,30,500,2`. -/
theorem step_reports_witness :
    Emits env0 st0 (stepToken 31 10 20 30 500 (some 2))
      [[1, 'l'.toNat, 2, 0, 0, 0, 0, 0, 0], [1, 'P'.toNat, 10, 20, 30, 1, 244, 31, 0]] :=
  step_reports env0 st0 31 10 20 30 500 (some 2) (by decide) (by decide) (by decide)
    (by decide) (by decide) (by decide) (by decide)

/-- C4, refuted as stated: the led 258 of `=1,2,3,4,258` is greater than 2,
but the report carries 2 in byte 7, not 0. -/
theorem fade_led_wraps :
    Emits env0 st0 (fadeToken 1 2 3 4 (some 258)) [[1, 'c'.toNat, 1, 2, 3, 0, 4, 2, 0]] ∧
    ¬ Emits env0 st0 (fadeToken 1 2 3 4 (some 258))
      [[1, 'c'.toNat, 1, 2, 3, 4 / 256, 4 % 256, ledByte (some 258), 0]] := by
  decide

/-- C4, amended: with a device selected, every token `=R,G,B,T[,led]` with
R, G, B in [0,255], T in [0,65535] and led, when present, in [0,255] is
accepted and sends exactly one report,
`[1,'c',R,G,B,T div 256,T mod 256,L,0]`, where `L` is led when led is 1 or 2
and 0 when led is absent, 0 or greater than 2. -/
theorem fade_report (env : Env) (s : St) (R G B T : Nat) (led : Option Nat)
    (hfd : s.fd ≠ -1) (hR : R ≤ 255) (hG : G ≤ 255) (hB : B ≤ 255) (hT : T ≤ 65535)
    (hled : led.getD 0 ≤ 255) :
    Emits env s (fadeToken R G B T led)
      [[1, 'c'.toNat, R, G, B, T / 256, T % 256, ledByte led, 0]] := by
  have htok := token_fade env s R G B T led (by omega) (by omega) (by omega) (by omega)
    (by omega)
  refine emits_of_cont env s _ _ _ htok (color_fd _ _ _ _ _ _ _ _ _) ?_
  rw [color_sent env s 'c' R G B T 0 _ hfd (by omega) (by omega) (by omega) (by omega)
    (by omega) (by omega)]
  have h7 : (if 1 ≤ led.getD 0 ∧ led.getD 0 ≤ 2 then led.getD 0 else min 0 31) = ledByte led := by
    cases led with
    | none => simp [ledByte]
    | some n => simp only [ledByte, Option.getD_some]; split_ifs <;> omega
  rw [h7]
  rfl

/-- Witness of `fade_report`: the token `=255,0,0,100,2`. -/
theorem fade_report_witness :
    Emits env0 st0 (fadeToken 255 0 0 100 (some 2)) [[1, 'c'.toNat, 255, 0, 0, 0, 100, 2, 0]] :=
  fade_report env0 st0 255 0 0 100 (some 2) (by decide) (by decide) (by decide) (by decide)
    (by decide) (by decide)

/-- C5, refuted as stated: `+5,33,300` has step ≤ 31 and 1 ≤ stop ≤ 33,
but the report carries 44 in byte 5, not the count 300. -/
theorem play_count_wraps :
    Emits env0 st0 (playToken3 5 33 300) [[1, 'p'.toNat, 1, 5, 33, 44, 0, 0, 0]] ∧
    ¬ Emits env0 st0 (playToken3 5 33 300) [[1, 'p'.toNat, 1, 5, 33, 300, 0, 0, 0]] := by
  decide

/-- C5, amended: with a device selected, every token `+step,stop,count` with
step ≤ 31, 1 ≤ stop ≤ 33 and count in [0,255] is accepted and sends exactly one
report `[1,'p',1,step,stop,count,0,0,0]`, and the one-field token `+step`
sends `[1,'p',1,step,0,0,0,0,0]`. -/
theorem play_report (env : Env) (s : St) (step stop count : Nat) (hfd : s.fd ≠ -1)
    (hstep : step ≤ 31) (hstop1 : 1 ≤ stop) (hstop2 : stop ≤ 33) (hcount : count ≤ 255) :
    Emits env s (playToken3 step stop count) [[1, 'p'.toNat, 1, step, stop, count, 0, 0, 0]] ∧
    Emits env s (playToken step) [[1, 'p'.toNat, 1, step, 0, 0, 0, 0, 0]] := by
  constructor
  · have htok := token_play3 env s step stop count hstep hstop1 hstop2 (by omega)
    refine emits_of_cont env s _ _ _ htok (play_fd _ _ _ _ _ _ _) ?_
    rw [play_sent env s 'p' 1 step stop count hfd (by omega) (by omega) (by omega) (by omega)]
    rfl
  · have htok := token_play env s step hstep
    refine emits_of_cont env s _ _ _ htok (play_fd _ _ _ _ _ _ _) ?_
    rw [play_sent env s 'p' 1 step 0 0 hfd (by omega) (by omega) (by omega) (by omega)]
    rfl

/-- Witness of `play_report`: the tokens `+5,33,3` and `+5`. -/
theorem play_report_witness :
    Emits env0 st0 "+5,33,3".toList [[1, 'p'.toNat, 1, 5, 33, 3, 0, 0, 0]] ∧
    Emits env0 st0 "+5".toList [[1, 'p'.toNat, 1, 5, 0, 0, 0, 0, 0]] :=
  play_report env0 st0 5 33 3 (by decide) (by decide) (by decide) (by decide) (by decide)

/-- C6, refuted as stated: `+256` has a step greater than 31 and `+5,257,3`
a stop outside [1,33], but both are accepted and send a report, with step 0
and with stop 1. -/
theorem play_step_wraps :
    ¬ Fatal env0 st0 (playToken 256) ∧
    Emits env0 st0 (playToken 256) [[1, 'p'.toNat, 1, 0, 0, 0, 0, 0, 0]] ∧
    ¬ Fatal env0 st0 (playToken3 5 257 3) ∧
    Emits env0 st0 (playToken3 5 257 3) [[1, 'p'.toNat, 1, 5, 1, 3, 0, 0, 0]] := by
  decide

/-- C6, amended: a `+` token whose fields are in [0,255] ends the run in
`usage` with status 1 and sends no report when its step is greater than 31
(one-field or three-field form), when it has three fields and stop is
outside [1,33], and whenever it has exactly two fields. -/
theorem play_fatal (env : Env) (s : St) (step stop count : Nat) (hstep : step ≤ 255)
    (hstop : stop ≤ 255) (hcount : count ≤ 255) :
    (31 < step → Fatal env s (playToken step)) ∧
    (31 < step ∨ stop < 1 ∨ 33 < stop → Fatal env s (playToken3 step stop count)) ∧
    Fatal env s (playToken2 step stop) := by
  refine ⟨fun h => ?_, fun h => ?_, ?_⟩
  · exact fatal_of_usage env s _ (token_play_fatal env s step h (by omega))
  · exact fatal_of_usage env s _
      (token_play3_fatal env s step stop count (by omega) (by omega) (by omega) h)
  · exact fatal_of_usage env s _ (token_play2_fatal env s step stop (by omega) (by omega))

/-- Witness of `play_fatal`: the tokens `+40`, `+40,33,3`, `+5,40,3`, `+5,0,3`
and `+5,33`. -/
theorem play_fatal_witness :
    Fatal env0 st0 "+40".toList ∧ Fatal env0 st0 "+40,33,3".toList ∧
    Fatal env0 st0 "+5,40,3".toList ∧ Fatal env0 st0 "+5,0,3".toList ∧
    Fatal env0 st0 "+5,33".toList :=
  ⟨(play_fatal env0 st0 40 33 3 (by decide) (by decide) (by decide)).1 (by decide),
   (play_fatal env0 st0 40 33 3 (by decide) (by decide) (by decide)).2.1 (by decide),
   (play_fatal env0 st0 5 40 3 (by decide) (by decide) (by decide)).2.1 (by decide),
   (play_fatal env0 st0 5 0 3 (by decide) (by decide) (by decide)).2.1 (by decide),
   (play_fatal env0 st0 5 33 3 (by decide) (by decide) (by decide)).2.2⟩

/-- C7, refuted as stated: the token `_,` ends the run in `usage`; it does
not send the all-zero `'n'` report. -/
theorem off_comma_fatal :
    Fatal env0 st0 "_,".toList ∧
    ¬ Emits env0 st0 "_,".toList [[1, 'n'.toNat, 0, 0, 0, 0, 0, 0, 0]] := by
  decide

/-- C7, amended: a `_` token with nothing but white space after the
underscore, in particular the bare `_` of the usage text, is accepted and,
with a device selected, sends exactly one report, `[1,'n',0,0,0,0,0,0,0]`;
a `_` token whose suffix begins (after white space) with a character that is
neither a digit nor a sign, such as `_,`, ends the run in `usage` with no
report. -/
theorem off_now_report (env : Env) (s : St) (ws : List Char) (hfd : s.fd ≠ -1)
    (hws : ∀ c ∈ ws, isspace c = true) :
    Emits env s ('_' :: ws) [[1, 'n'.toNat, 0, 0, 0, 0, 0, 0, 0]] ∧
    ∀ (c : Char) (rest : List Char), isspace c = false → isdigit c = false → c ≠ '+' →
      c ≠ '-' → Fatal env s ('_' :: (ws ++ c :: rest)) := by
  constructor
  · have htok := token_off_spaces env s ws hws
    refine emits_of_cont env s _ _ _ htok (color_fd _ _ _ _ _ _ _ _ _) ?_
    rw [color_sent env s 'n' 0 0 0 0 0 0 hfd (by omega) (by omega) (by omega) (by omega)
      (by omega) (by omega)]
    rfl
  · intro c rest h1 h2 h3 h4
    exact fatal_of_usage env s _ (token_off_garbage env s ws c rest hws h1 h2 h3 h4)

/-- Witness of `off_now_report`: the bare token `_`, and `_,`. -/
theorem off_now_report_witness :
    Emits env0 st0 "_".toList [[1, 'n'.toNat, 0, 0, 0, 0, 0, 0, 0]] ∧
    Fatal env0 st0 "_,".toList :=
  ⟨(off_now_report env0 st0 [] (by decide) (by decide)).1,
   (off_now_report env0 st0 [] (by decide) (by decide)).2 ',' [] (by decide) (by decide)
     (by decide) (by decide)⟩

/-- C8, refuted as stated: the led 257 of `_50,257` is neither 1 nor 2, but
the report carries 1 in byte 7, not 0. -/
theorem off_led_wraps :
    Emits env0 st0 (offToken 50 (some 257)) [[1, 'c'.toNat, 0, 0, 0, 0, 50, 1, 0]] ∧
    ¬ Emits env0 st0 (offToken 50 (some 257))
      [[1, 'c'.toNat, 0, 0, 0, 50 / 256, 50 % 256, ledByte (some 257), 0]] := by
  decide

/-- C8, amended: with a device selected, every token `_T` or `_T,led` with T
in [0,65535] and led, when present, in [0,255] is accepted and sends exactly
one report, `[1,'c',0,0,0,T div 256,T mod 256,L,0]`, where `L` is led when
led is 1 or 2 and 0 otherwise. -/
theorem off_fade_report (env : Env) (s : St) (T : Nat) (led : Option Nat) (hfd : s.fd ≠ -1)
    (hT : T ≤ 65535) (hled : led.getD 0 ≤ 255) :
    Emits env s (offToken T led) [[1, 'c'.toNat, 0, 0, 0, T / 256, T % 256, ledByte led, 0]] := by
  have htok := token_off env s T led (by omega) (by omega)
  refine emits_of_cont env s _ _ _ htok (color_fd _ _ _ _ _ _ _ _ _) ?_
  rw [color_sent env s 'c' 0 0 0 T 0 _ hfd (by omega) (by omega) (by omega) (by omega)
    (by omega) (by omega)]
  have h7 : (if 1 ≤ led.getD 0 ∧ led.getD 0 ≤ 2 then led.getD 0 else min 0 31) = ledByte led := by
    cases led with
    | none => simp [ledByte]
    | some n => simp only [ledByte, Option.getD_some]; split_ifs <;> omega
  rw [h7]
  rfl

/-- Witness of `off_fade_report`: the token `_50,1` gives duration 50 and
byte 7 equal to 1. -/
theorem off_fade_report_witness :
    Emits env0 st0 "_50,1".toList [[1, 'c'.toNat, 0, 0, 0, 0, 50, 1, 0]] :=
  off_fade_report env0 st0 50 (some 1) (by decide) (by decide) (by decide)

/-- C9, the code at the failing input: the bare token `-` ends the run in
`usage` with status 1 and sends no report, whereas `-5` and `-40` send the
reports `[1,'p',0,5,0,0,0,0,0]` and `[1,'p',0,0,0,0,0,0,0]`. -/
theorem stop_bare_fatal :
    Fatal env0 st0 (stopToken none) ∧
    ¬ Emits env0 st0 (stopToken none) [[1, 'p'.toNat, 0, 0, 0, 0, 0, 0, 0]] ∧
    Emits env0 st0 "-5".toList [[1, 'p'.toNat, 0, 5, 0, 0, 0, 0, 0]] ∧
    Emits env0 st0 "-40".toList [[1, 'p'.toNat, 0, 0, 0, 0, 0, 0, 0]] := by
  decide

/-- C10: for every opcode byte, colour bytes R, G, B, 16-bit T and bytes step
and led, `color` with a device selected sends exactly one report of 9 bytes
whose byte 0 is 1 and whose decoding gives back the opcode, R, G, B and T,
and in byte 7 the normalised LED (led if led ≤ 2, else 0) when that is
nonzero and the clamped step `min step 31` otherwise. -/
theorem color_roundtrip (env : Env) (s : St) (action : Char) (R G B T step led : Nat)
    (hfd : s.fd ≠ -1) (haction : action.toNat ≤ 255) (hR : R ≤ 255) (hG : G ≤ 255)
    (hB : B ≤ 255) (hT : T ≤ 65535) (hstep : step ≤ 255) (hled : led ≤ 255) :
    ∃ r, sent (color env s action R G B T step led).log = sent s.log ++ [r] ∧
      r.length = 9 ∧ r.getD 0 0 = 1 ∧
      decode r =
        { action := action.toNat, R := R, G := G, B := B, T := T,
          ledOrStep := if (if led ≤ 2 then led else 0) ≠ 0 then (if led ≤ 2 then led else 0)
            else min step 31 } := by
  refine ⟨_, color_sent env s action R G B T step led hfd (by omega) (by omega) (by omega)
    (by omega) (by omega) (by omega), rfl, rfl, ?_⟩
  have h1 : action.toNat % 256 = action.toNat := by omega
  have h2 : T / 256 * 256 + T % 256 = T := by omega
  have h7 : (if 1 ≤ led ∧ led ≤ 2 then led else min step 31) =
      if (if led ≤ 2 then led else 0) ≠ 0 then (if led ≤ 2 then led else 0)
        else min step 31 := by
    split_ifs <;> omega
  simp only [decode, List.getD_cons_succ, List.getD_cons_zero, h1, h2, h7]

/-- Witness of `color_roundtrip`: opcode `'c'`, colour 10,20,30, duration
500, step 40 and led 0 decode to step 31. -/
theorem color_roundtrip_witness :
    ∃ r, sent (color env0 st0 'c' 10 20 30 500 40 0).log = sent st0.log ++ [r] ∧
      r.length = 9 ∧ r.getD 0 0 = 1 ∧
      decode r = { action := 'c'.toNat, R := 10, G := 20, B := 30, T := 500, ledOrStep := 31 } :=
  color_roundtrip env0 st0 'c' 10 20 30 500 40 0 (by decide) (by decide) (by decide)
    (by decide) (by decide) (by decide) (by decide) (by decide)

/-! ## Properties of `token` for an arbitrary argument -/

theorem scanDirs_count (dirs : List Directive) : ∀ (inp : List Char) (vals : List Nat),
    (scanDirs dirs inp vals).1 = ((scanDirs dirs inp vals).2.length : Int) ∨
    ((scanDirs dirs inp vals).1 = -1 ∧ (scanDirs dirs inp vals).2 = []) := by
  induction dirs with
  | nil => intro inp vals; left; rfl
  | cons d ds ih =>
    intro inp vals
    have hin : (inputError vals).1 = ((inputError vals).2.length : Int) ∨
        ((inputError vals).1 = -1 ∧ (inputError vals).2 = []) := by
      unfold inputError
      by_cases h : vals.length = 0
      · right
        simp [h, EOF, List.length_eq_zero.mp h]
      · left
        simp [h]
    cases d with
    | lit c =>
      cases inp with
      | nil => simpa [scanDirs] using hin
      | cons x xs =>
        by_cases hx : x = c
        · simpa [scanDirs, hx] using ih xs vals
        · simp [scanDirs, hx]
    | hhu =>
      simp only [scanDirs]
      cases h : convUnsigned inp with
      | ok v rest => exact ih rest _
      | inputFailure => exact hin
      | matchingFailure => left; rfl
    | hu =>
      simp only [scanDirs]
      cases h : convUnsigned inp with
      | ok v rest => exact ih rest _
      | inputFailure => exact hin
      | matchingFailure => left; rfl

theorem var_of_count (str fmt : List Char) (n i : Nat) (h : (sscanf str fmt).1 = (n : Int))
    (hi : n ≤ i) : var (sscanf str fmt).2 i = 0 := by
  unfold sscanf at *
  rcases scanDirs_count (parseFormat fmt) str [] with h1 | ⟨h1, h2⟩
  · rw [h1] at h
    have hl : (scanDirs (parseFormat fmt) str []).2.length = n := by exact_mod_cast h
    unfold var
    rw [List.getD_eq_default]
    omega
  · rw [h2]; rfl


theorem token_select (env : Env) (s : St) (arg : List Char)
    (h : arg.headD (Char.ofNat 0) = '/' ∨ arg.headD (Char.ofNat 0) = '.') :
    token env s arg =
      if env.openRc s.log arg < 0 then
        Run.cont ((s.emit (Event.opened arg (env.openRc s.log arg))).emit (Event.perror arg))
      else if (isblink1 env (s.emit (Event.opened arg (env.openRc s.log arg)))
          (env.openRc s.log arg)).1 ≠ 0 then
        Run.cont
          { fd := env.openRc s.log arg
            log := (if s.fd ≥ 0 then
              (isblink1 env (s.emit (Event.opened arg (env.openRc s.log arg)))
                (env.openRc s.log arg)).2.emit (Event.closed s.fd)
              else (isblink1 env (s.emit (Event.opened arg (env.openRc s.log arg)))
                (env.openRc s.log arg)).2).log }
      else
        Run.cont (isblink1 env (s.emit (Event.opened arg (env.openRc s.log arg)))
          (env.openRc s.log arg)).2 := by
  unfold token
  simp only [h, if_true]

theorem token_cases (arg : List Char) :
    (arg.headD (Char.ofNat 0) = '/' ∨ arg.headD (Char.ofNat 0) = '.') ∨
    (∀ env s, token env s arg = usage s (some arg)) ∨
    (∃ R G B T led, ∀ env s, token env s arg = Run.cont (color env s 'c' R G B T 0 led)) ∨
    (∃ R G B, ∀ env s, token env s arg = Run.cont (color env s 'n' R G B 0 0 0)) ∨
    (∃ led R G B T step, led ≤ 2 ∧
      ∀ env s, token env s arg = Run.cont (color env (setledn env s led) 'P' R G B T step 0)) ∨
    (∃ p step stop count, p ≤ 1 ∧ step ≤ 31 ∧ stop ≤ 33 ∧
      ∀ env s, token env s arg = Run.cont (play env s 'p' p step stop count)) ∨
    (∀ env s, token env s arg = Run.cont ((List.range (STEPS + 1)).foldl
      (fun t step => color env t 'P' 0 0 0 0 step 0) s)) := by
  by_cases h0 : arg.headD (Char.ofNat 0) = '/' ∨ arg.headD (Char.ofNat 0) = '.'
  · exact Or.inl h0
  right
  by_cases h1 : arg.headD (Char.ofNat 0) = '='
  · by_cases hrc : (sscanf arg "=%hhu,%hhu,%hhu,%hu,%hhu".toList).1 ≠ 5 ∧
        (sscanf arg "=%hhu,%hhu,%hhu,%hu,%hhu".toList).1 ≠ 4
    · left
      intro env s
      unfold token
      simp +decide only [h1, if_true, if_false, ite_self]
      rw [if_pos hrc]
    · right; left
      refine ⟨var (sscanf arg "=%hhu,%hhu,%hhu,%hu,%hhu".toList).2 0,
        var (sscanf arg "=%hhu,%hhu,%hhu,%hu,%hhu".toList).2 1,
        var (sscanf arg "=%hhu,%hhu,%hhu,%hu,%hhu".toList).2 2,
        var (sscanf arg "=%hhu,%hhu,%hhu,%hu,%hhu".toList).2 3,
        var (sscanf arg "=%hhu,%hhu,%hhu,%hu,%hhu".toList).2 4, fun env s => ?_⟩
      unfold token
      simp +decide only [h1, if_true, if_false, ite_self]
      rw [if_neg hrc]
  by_cases h2 : arg.headD (Char.ofNat 0) = ':'
  · by_cases hrc : (sscanf arg ":%hhu,%hhu,%hhu".toList).1 ≠ 3
    · left
      intro env s
      unfold token
      simp +decide only [h2, if_true, if_false]
      rw [if_pos hrc]
    · right; right; left
      refine ⟨var (sscanf arg ":%hhu,%hhu,%hhu".toList).2 0,
        var (sscanf arg ":%hhu,%hhu,%hhu".toList).2 1,
        var (sscanf arg ":%hhu,%hhu,%hhu".toList).2 2, fun env s => ?_⟩
      unfold token
      simp +decide only [h2, if_true, if_false]
      rw [if_neg hrc]
  by_cases h3 : arg.headD (Char.ofNat 0) = '@'
  · by_cases hrc : (sscanf arg "@%hhu:%hhu,%hhu,%hhu,%hu,%hhu".toList).1 ≠ 6 ∧
        (sscanf arg "@%hhu:%hhu,%hhu,%hhu,%hu,%hhu".toList).1 ≠ 5
    · left
      intro env s
      unfold token
      simp +decide only [h3, if_true, if_false]
      rw [if_pos hrc]
    · by_cases hst : var (sscanf arg "@%hhu:%hhu,%hhu,%hhu,%hu,%hhu".toList).2 0 > STEPS
      · left
        intro env s
        unfold token
        simp +decide only [h3, if_true, if_false]
        rw [if_neg hrc, if_pos hst]
      · right; right; right; left
        refine ⟨if (sscanf arg "@%hhu:%hhu,%hhu,%hhu,%hu,%hhu".toList).1 = 6 then
            (if var (sscanf arg "@%hhu:%hhu,%hhu,%hhu,%hu,%hhu".toList).2 5 > 2 then 0
              else var (sscanf arg "@%hhu:%hhu,%hhu,%hhu,%hu,%hhu".toList).2 5)
            else var (sscanf arg "@%hhu:%hhu,%hhu,%hhu,%hu,%hhu".toList).2 5,
          var (sscanf arg "@%hhu:%hhu,%hhu,%hhu,%hu,%hhu".toList).2 1,
          var (sscanf arg "@%hhu:%hhu,%hhu,%hhu,%hu,%hhu".toList).2 2,
          var (sscanf arg "@%hhu:%hhu,%hhu,%hhu,%hu,%hhu".toList).2 3,
          var (sscanf arg "@%hhu:%hhu,%hhu,%hhu,%hu,%hhu".toList).2 4,
          var (sscanf arg "@%hhu:%hhu,%hhu,%hhu,%hu,%hhu".toList).2 0, ?_, fun env s => ?_⟩
        · by_cases h6 : (sscanf arg "@%hhu:%hhu,%hhu,%hhu,%hu,%hhu".toList).1 = 6
          · rw [if_pos h6]
            split_ifs <;> omega
          · have h5 : (sscanf arg "@%hhu:%hhu,%hhu,%hhu,%hu,%hhu".toList).1 = ((5 : Nat) : Int) := by
              by_contra h5
              exact hrc ⟨h6, h5⟩
            rw [if_neg h6, var_of_count _ _ 5 5 h5 (le_refl 5)]
            omega
        · unfold token
          simp +decide only [h3, if_true, if_false]
          rw [if_neg hrc, if_neg hst]
  by_cases h4 : arg.headD (Char.ofNat 0) = '_'
  · by_cases hrc : (sscanf arg "_%hu,%hhu".toList).1 = 1 ∨ (sscanf arg "_%hu,%hhu".toList).1 = 2
    · right; left
      refine ⟨0, 0, 0, var (sscanf arg "_%hu,%hhu".toList).2 0,
        var (sscanf arg "_%hu,%hhu".toList).2 1, fun env s => ?_⟩
      unfold token
      simp +decide only [h4, if_true, if_false]
      rw [if_pos hrc]
    · by_cases hrc2 : (sscanf arg "_%hu,%hhu".toList).1 = -1
      · right; right; left
        refine ⟨0, 0, 0, fun env s => ?_⟩
        unfold token
        simp +decide only [h4, if_true, if_false]
        rw [if_neg hrc, if_pos hrc2]
      · left
        intro env s
        unfold token
        simp +decide only [h4, if_true, if_false]
        rw [if_neg hrc, if_neg hrc2]
  by_cases h5 : arg.headD (Char.ofNat 0) = '+'
  · by_cases hc1 : (sscanf arg "+%hhu,%hhu,%hhu".toList).1 = 3 ∧
        (var (sscanf arg "+%hhu,%hhu,%hhu".toList).2 1 < 1 ∨
          var (sscanf arg "+%hhu,%hhu,%hhu".toList).2 1 > STEPS + 1)
    · left
      intro env s
      unfold token
      simp +decide only [h5, if_true, if_false]
      rw [if_pos hc1]
    · by_cases hc2 : (sscanf arg "+%hhu,%hhu,%hhu".toList).1 ≠ 3 ∧
          (sscanf arg "+%hhu,%hhu,%hhu".toList).1 ≠ 1
      · left
        intro env s
        unfold token
        simp +decide only [h5, if_true, if_false]
        rw [if_neg hc1, if_pos hc2]
      · by_cases hc3 : var (sscanf arg "+%hhu,%hhu,%hhu".toList).2 0 > STEPS - 1
        · left
          intro env s
          unfold token
          simp +decide only [h5, if_true, if_false]
          rw [if_neg hc1, if_neg hc2, if_pos hc3]
        · right; right; right; right; left
          refine ⟨1, var (sscanf arg "+%hhu,%hhu,%hhu".toList).2 0,
            var (sscanf arg "+%hhu,%hhu,%hhu".toList).2 1,
            var (sscanf arg "+%hhu,%hhu,%hhu".toList).2 2, le_refl 1, ?_, ?_, fun env s => ?_⟩
          · simp only [STEPS] at hc3
            omega
          · by_cases h3' : (sscanf arg "+%hhu,%hhu,%hhu".toList).1 = 3
            · simp only [STEPS] at hc1
              have := fun h => hc1 ⟨h3', h⟩
              omega
            · have h1' : (sscanf arg "+%hhu,%hhu,%hhu".toList).1 = ((1 : Nat) : Int) := by
                by_contra h1'
                exact hc2 ⟨h3', h1'⟩
              rw [var_of_count _ _ 1 1 h1' (le_refl 1)]
              omega
          · unfold token
            simp +decide only [h5, if_true, if_false]
            rw [if_neg hc1, if_neg hc2, if_neg hc3]
  by_cases h6 : arg.headD (Char.ofNat 0) = '-'
  · by_cases hc1 : (sscanf arg "-%hhu".toList).1 = 3 ∧ True
    · left
      intro env s
      unfold token
      simp only [h6]
      simp +decide only [if_true, if_false]
      rw [if_pos hc1]
    · by_cases hc2 : (sscanf arg "-%hhu".toList).1 ≠ 3 ∧ (sscanf arg "-%hhu".toList).1 ≠ 1
      · left
        intro env s
        unfold token
        simp only [h6]
        simp +decide only [if_true, if_false]
        rw [if_neg hc1, if_pos hc2]
      · right; right; right; right; left
        refine ⟨0, if var (sscanf arg "-%hhu".toList).2 0 > STEPS - 1 then 0
          else var (sscanf arg "-%hhu".toList).2 0, 0, 0, by omega, ?_, by omega, fun env s => ?_⟩
        · simp only [STEPS]
          split_ifs <;> omega
        · unfold token
          simp only [h6]
          simp +decide only [if_true, if_false]
          rw [if_neg hc1, if_neg hc2]
  by_cases h7 : arg.headD (Char.ofNat 0) = '%'
  · right; right; right; right; right
    intro env s
    unfold token
    simp +decide only [h7, if_true, if_false]
  · left
    intro env s
    unfold token
    simp only [h0, h1, h2, h3, h4, h5, h6, h7, if_false]

theorem color_nodevice (env : Env) (s : St) (action : Char) (R G B T step led : Nat)
    (hfd : s.fd = -1) : color env s action R G B T step led = s := by
  unfold color
  rw [if_pos hfd]

theorem setledn_nodevice (env : Env) (s : St) (led : Nat) (hfd : s.fd = -1) :
    setledn env s led = s := by
  unfold setledn
  rw [if_pos hfd]

theorem play_nodevice (env : Env) (s : St) (action : Char) (p step stop count : Nat)
    (hfd : s.fd = -1) : play env s action p step stop count = s := by
  unfold play
  rw [if_pos hfd]

theorem clear_nodevice (env : Env) (l : List Nat) (s : St) (hfd : s.fd = -1) :
    l.foldl (fun t step => color env t 'P' 0 0 0 0 step 0) s = s := by
  induction l with
  | nil => rfl
  | cons i is ih => rw [List.foldl_cons, color_nodevice env s 'P' 0 0 0 0 i 0 hfd, ih]

theorem token_status_cases (env : Env) (s : St) (arg : List Char) :
    (token env s arg).status = none ∨ token env s arg = usage s (some arg) := by
  rcases token_cases arg with h | h | ⟨_, _, _, _, _, h⟩ | ⟨_, _, _, h⟩ |
    ⟨_, _, _, _, _, _, _, h⟩ | ⟨_, _, _, _, _, _, _, h⟩ | h
  · left
    rw [token_select env s arg h]
    split_ifs <;> rfl
  · right; exact h env s
  all_goals left; rw [h env s]; rfl

theorem token_status_indep (env env' : Env) (s s' : St) (arg : List Char) :
    (token env s arg).status = (token env' s' arg).status := by
  rcases token_cases arg with h | h | ⟨_, _, _, _, _, h⟩ | ⟨_, _, _, h⟩ |
    ⟨_, _, _, _, _, _, _, h⟩ | ⟨_, _, _, _, _, _, _, h⟩ | h
  · rw [token_select env s arg h, token_select env' s' arg h]
    split_ifs <;> rfl
  all_goals rw [h env s, h env' s']; rfl

theorem token_status (env : Env) (s : St) (arg : List Char) :
    (token env s arg).status = if usageError arg then some 1 else none := by
  unfold usageError
  rw [token_status_indep env0 env st0 s arg]
  rcases token_status_cases env s arg with h | h
  · rw [h]; rfl
  · rw [h]; rfl

theorem token_of_usageError (env : Env) (s : St) (arg : List Char) (h : usageError arg = true) :
    token env s arg = usage s (some arg) := by
  rcases token_status_cases env s arg with h1 | h1
  · rw [token_status env s arg, h] at h1
    exact absurd h1 (by decide)
  · exact h1

theorem token_of_accepted (env : Env) (s : St) (arg : List Char) (h : usageError arg = false) :
    token env s arg = Run.cont (token env s arg).st := by
  have h1 := token_status env s arg
  rw [h] at h1
  cases ht : token env s arg with
  | cont t => rfl
  | exit c t => rw [ht] at h1; exact absurd h1 (by simp [Run.status])

theorem token_nodevice (env : Env) (s : St) (arg : List Char) (hfd : s.fd = -1)
    (hcmd : ¬ (arg.headD (Char.ofNat 0) = '/' ∨ arg.headD (Char.ofNat 0) = '.'))
    (hacc : usageError arg = false) : token env s arg = Run.cont s := by
  have hst := token_status env s arg
  rw [hacc] at hst
  rcases token_cases arg with h | h | ⟨_, _, _, _, _, h⟩ | ⟨_, _, _, h⟩ |
    ⟨_, _, _, _, _, _, _, h⟩ | ⟨_, _, _, _, _, _, _, h⟩ | h
  · exact absurd h hcmd
  · rw [h env s] at hst
    simp [usage, Run.status] at hst
  · rw [h env s, color_nodevice _ _ _ _ _ _ _ _ _ hfd]
  · rw [h env s, color_nodevice _ _ _ _ _ _ _ _ _ hfd]
  · rw [h env s, setledn_nodevice _ _ _ hfd, color_nodevice _ _ _ _ _ _ _ _ _ hfd]
  · rw [h env s, play_nodevice _ _ _ _ _ _ _ hfd]
  · rw [h env s, clear_nodevice _ _ _ hfd]

theorem closes_append (l1 l2 : List Event) : closes (l1 ++ l2) = closes l1 ++ closes l2 := by
  induction l1 with
  | nil => rfl
  | cons e es ih => cases e <;> simp [closes, ih]

theorem opens_append (l1 l2 : List Event) : opens (l1 ++ l2) = opens l1 ++ opens l2 := by
  induction l1 with
  | nil => rfl
  | cons e es ih => cases e <;> simp [opens, ih]

theorem isblink1_fd (env : Env) (s : St) (fd : Int) : (isblink1 env s fd).2.fd = s.fd := by
  simp only [isblink1]
  split_ifs <;> rfl

theorem isblink1_sent (env : Env) (s : St) (fd : Int) :
    sent (isblink1 env s fd).2.log = sent s.log := by
  simp only [isblink1]
  split_ifs <;> simp [St.emit, sent_append, sent]

theorem isblink1_closes (env : Env) (s : St) (fd : Int) :
    closes (isblink1 env s fd).2.log = closes s.log := by
  simp only [isblink1]
  split_ifs <;> simp [St.emit, closes_append, closes]

theorem isblink1_iff (env : Env) (s : St) (fd : Int) :
    (isblink1 env s fd).1 ≠ 0 ↔
      (0 ≤ (env.rawinfoRc s.log fd).1 ∧ (env.rawinfoRc s.log fd).2.1 = BLINK1_VENDOR_ID ∧
        (env.rawinfoRc s.log fd).2.2 = BLINK1_DEVICE_ID) := by
  simp only [isblink1]
  split_ifs with h1 h2
  · simp; intro h; omega
  · simp; exact ⟨by omega, h2⟩
  · simp; intro _; simpa using h2

theorem token_select_spec (env : Env) (s : St) (arg : List Char)
    (hsel : arg.headD (Char.ofNat 0) = '/' ∨ arg.headD (Char.ofNat 0) = '.') :
    (token env s arg).status = none ∧
    sent (token env s arg).st.log = sent s.log ∧
    ((0 ≤ env.openRc s.log arg ∧
        (isblink1 env (s.emit (Event.opened arg (env.openRc s.log arg)))
          (env.openRc s.log arg)).1 ≠ 0) →
      (token env s arg).st.fd = env.openRc s.log arg ∧
      closes (token env s arg).st.log =
        closes s.log ++ (if 0 ≤ s.fd then [s.fd] else [])) ∧
    (¬ (0 ≤ env.openRc s.log arg ∧
        (isblink1 env (s.emit (Event.opened arg (env.openRc s.log arg)))
          (env.openRc s.log arg)).1 ≠ 0) →
      (token env s arg).st.fd = s.fd ∧
      closes (token env s arg).st.log = closes s.log) := by
  rw [token_select env s arg hsel]
  by_cases h1 : env.openRc s.log arg < 0
  · rw [if_pos h1]
    refine ⟨rfl, ?_, ?_, ?_⟩
    · simp [Run.st, St.emit, sent_append, sent]
    · intro h; omega
    · intro _
      refine ⟨rfl, ?_⟩
      simp [Run.st, St.emit, closes_append, closes]
  · rw [if_neg h1]
    by_cases h2 : (isblink1 env (s.emit (Event.opened arg (env.openRc s.log arg)))
        (env.openRc s.log arg)).1 ≠ 0
    · rw [if_pos h2]
      refine ⟨rfl, ?_, ?_, ?_⟩
      · by_cases h3 : s.fd ≥ 0
        · simp [Run.st, h3, St.emit, sent_append, sent, isblink1_sent]
        · simp [Run.st, h3, St.emit, sent_append, sent, isblink1_sent]
      · intro _
        refine ⟨rfl, ?_⟩
        by_cases h3 : s.fd ≥ 0
        · simp [Run.st, h3, St.emit, closes_append, closes, isblink1_closes]
        · simp [Run.st, h3, St.emit, closes_append, closes, isblink1_closes]
      · intro h
        exact absurd ⟨by omega, h2⟩ h
    · rw [if_neg h2]
      refine ⟨rfl, ?_, ?_, ?_⟩
      · simp [Run.st, St.emit, sent_append, sent, isblink1_sent]
      · intro h
        exact absurd h.2 h2
      · intro _
        refine ⟨?_, ?_⟩
        · simp [Run.st, isblink1_fd, St.emit]
        · simp [Run.st, St.emit, closes_append, closes, isblink1_closes]

/-! ## The reports a token appends -/

theorem extends_refl (P : List Nat → Prop) (s : St) : Extends P s s :=
  ⟨[], by simp, by intro r hr; simp [sent] at hr⟩

theorem extends_trans (P : List Nat → Prop) (s t u : St) (h1 : Extends P s t)
    (h2 : Extends P t u) : Extends P s u := by
  obtain ⟨e1, hl1, hp1⟩ := h1
  obtain ⟨e2, hl2, hp2⟩ := h2
  refine ⟨e1 ++ e2, by rw [hl2, hl1, List.append_assoc], ?_⟩
  intro r hr
  rw [sent_append] at hr
  rcases List.mem_append.mp hr with h | h
  · exact hp1 r h
  · exact hp2 r h

theorem extends_mono (P Q : List Nat → Prop) (s t : St) (hPQ : ∀ r, P r → Q r)
    (h : Extends P s t) : Extends Q s t := by
  obtain ⟨e, hl, hp⟩ := h
  exact ⟨e, hl, fun r hr => hPQ r (hp r hr)⟩

theorem extends_sent (P : List Nat → Prop) (s t : St) (h : Extends P s t)
    (hs : ∀ r ∈ sent s.log, P r) : ∀ r ∈ sent t.log, P r := by
  obtain ⟨e, hl, hp⟩ := h
  intro r hr
  rw [hl, sent_append] at hr
  rcases List.mem_append.mp hr with h | h
  · exact hs r h
  · exact hp r h

theorem extends_of_sent_nil (P : List Nat → Prop) (s t : St) (evs : List Event)
    (hl : t.log = s.log ++ evs) (hs : sent evs = []) : Extends P s t :=
  ⟨evs, hl, by intro r hr; rw [hs] at hr; simp at hr⟩

theorem sendFeature_extends (P : List Nat → Prop) (env : Env) (s : St) (buf : List Nat)
    (hb : P buf) : Extends P s (sendFeature env s buf) := by
  simp only [sendFeature]
  split_ifs
  · refine ⟨[Event.feature s.fd buf, Event.perror "HIDIOCSFEATURE".toList], ?_, ?_⟩
    · simp [St.emit]
    · intro r hr
      simp [sent] at hr
      rw [hr]; exact hb
  · refine ⟨[Event.feature s.fd buf], ?_, ?_⟩
    · simp [St.emit]
    · intro r hr
      simp [sent] at hr
      rw [hr]; exact hb

theorem color_extends (env : Env) (s : St) (action : Char) (R G B T step led : Nat)
    (ha : action = 'c' ∨ action = 'P' ∨ (action = 'n' ∧ T = 0 ∧ step = 0 ∧ led = 0)) :
    Extends (fun r => WellFormed r ∧ InRange r) s (color env s action R G B T step led) := by
  by_cases hfd : s.fd = -1
  · rw [color_nodevice _ _ _ _ _ _ _ _ _ hfd]; exact extends_refl _ s
  · have h7 : (if (if led % 256 > 2 then 0 else led % 256) ≠ 0 then
          (if led % 256 > 2 then 0 else led % 256)
        else (if step % 256 > STEPS - 1 then STEPS - 1 else step % 256)) ≤ 31 := by
      simp only [STEPS]
      split_ifs <;> omega
    have hb : (fun r => WellFormed r ∧ InRange r)
        [1, action.toNat % 256, R % 256, G % 256, B % 256, T % 65536 / 256 % 256,
          T % 65536 % 256,
          if (if led % 256 > 2 then 0 else led % 256) ≠ 0 then
            (if led % 256 > 2 then 0 else led % 256)
          else (if step % 256 > STEPS - 1 then STEPS - 1 else step % 256), 0] := by
      rcases ha with rfl | rfl | ⟨rfl, rfl, rfl, rfl⟩
      · simpa +decide [WellFormed, InRange, byte] using h7
      · simpa +decide [WellFormed, InRange, byte] using h7
      · simp +decide [WellFormed, InRange, byte, STEPS]
    unfold color
    rw [if_neg hfd]
    exact sendFeature_extends _ env s _ hb

theorem setledn_extends (env : Env) (s : St) (led : Nat) (hled : led ≤ 2) :
    Extends (fun r => WellFormed r ∧ InRange r) s (setledn env s led) := by
  by_cases hfd : s.fd = -1
  · rw [setledn_nodevice _ _ _ hfd]; exact extends_refl _ s
  · have h2 : led % 256 ≤ 2 := by omega
    have hb : (fun r => WellFormed r ∧ InRange r)
        [1, 'l'.toNat % 256, led % 256, 0, 0, 0, 0, 0, 0] := by
      simpa +decide [WellFormed, InRange, byte] using h2
    unfold setledn
    rw [if_neg hfd]
    exact sendFeature_extends _ env s _ hb

theorem play_extends (env : Env) (s : St) (p step stop count : Nat) (hstep : step ≤ 31)
    (hstop : stop ≤ 33) :
    Extends (fun r => WellFormed r ∧ InRange r) s (play env s 'p' p step stop count) := by
  by_cases hfd : s.fd = -1
  · rw [play_nodevice _ _ _ _ _ _ _ hfd]; exact extends_refl _ s
  · have h3 : step % 256 ≤ 31 := by omega
    have h4 : stop % 256 ≤ 33 := by omega
    have hb : (fun r => WellFormed r ∧ InRange r)
        [1, 'p'.toNat % 256, p % 256, step % 256, stop % 256, count % 256, 0, 0, 0] := by
      simpa +decide [WellFormed, InRange, byte] using ⟨h3, h4⟩
    unfold play
    rw [if_neg hfd]
    exact sendFeature_extends _ env s _ hb

theorem clear_extends (env : Env) (l : List Nat) : ∀ s : St,
    Extends (fun r => WellFormed r ∧ InRange r) s
      (l.foldl (fun t step => color env t 'P' 0 0 0 0 step 0) s) := by
  induction l with
  | nil => intro s; exact extends_refl _ s
  | cons i is ih =>
    intro s
    rw [List.foldl_cons]
    exact extends_trans _ _ _ _ (color_extends env s 'P' 0 0 0 0 i 0 (Or.inr (Or.inl rfl)))
      (ih _)

theorem isblink1_extends (P : List Nat → Prop) (env : Env) (s : St) (fd : Int) :
    Extends P s (isblink1 env s fd).2 := by
  simp only [isblink1]
  split_ifs
  · exact extends_of_sent_nil P _ _ [Event.rawinfo fd (env.rawinfoRc s.log fd).1,
      Event.perror "HIDIOCGRAWINFO".toList] (by simp [St.emit]) rfl
  · exact extends_of_sent_nil P _ _ [Event.rawinfo fd (env.rawinfoRc s.log fd).1]
      (by simp [St.emit]) rfl
  · exact extends_of_sent_nil P _ _ [Event.rawinfo fd (env.rawinfoRc s.log fd).1]
      (by simp [St.emit]) rfl

theorem emit_extends (P : List Nat → Prop) (s : St) (e : Event) (he : sent [e] = []) :
    Extends P s (s.emit e) :=
  extends_of_sent_nil P _ _ [e] rfl he

theorem token_extends (env : Env) (s : St) (arg : List Char) :
    Extends (fun r => WellFormed r ∧ InRange r) s (token env s arg).st := by
  rcases token_cases arg with h0 | h0 | ⟨R, G, B, T, led, h0⟩ | ⟨R, G, B, h0⟩ |
    ⟨led, R, G, B, T, step, hled, h0⟩ | ⟨p, step, stop, count, _, hstep, hstop, h0⟩ | h0
  · rw [token_select env s arg h0]
    have e1 := emit_extends (fun r => WellFormed r ∧ InRange r) s
      (Event.opened arg (env.openRc s.log arg)) rfl
    have e2 := extends_trans _ _ _ _ e1 (isblink1_extends (fun r => WellFormed r ∧ InRange r)
      env (s.emit (Event.opened arg (env.openRc s.log arg))) (env.openRc s.log arg))
    split_ifs with h1 h2 h3
    · exact extends_trans _ _ _ _ e1 (emit_extends _ _ _ rfl)
    · exact extends_trans _ _ _ _ e2 (extends_of_sent_nil _ _ _ [Event.closed s.fd] rfl rfl)
    · exact extends_trans _ _ _ _ e2 (extends_of_sent_nil _ _ _ [] (by simp [Run.st]) rfl)
    · exact e2
  · rw [h0 env s]
    exact emit_extends _ s _ rfl
  · rw [h0 env s]
    exact color_extends env s 'c' R G B T 0 led (Or.inl rfl)
  · rw [h0 env s]
    exact color_extends env s 'n' R G B 0 0 0 (Or.inr (Or.inr ⟨rfl, rfl, rfl, rfl⟩))
  · rw [h0 env s]
    exact extends_trans _ _ _ _ (setledn_extends env s led hled)
      (color_extends env _ 'P' R G B T step 0 (Or.inr (Or.inl rfl)))
  · rw [h0 env s]
    exact play_extends env s p step stop count hstep hstop
  · rw [h0 env s]
    exact clear_extends env _ s

/-! ## The loop and `main` -/

theorem loop_cons (env : Env) (s : St) (a : List Char) (as : List (List Char)) :
    loop env s (a :: as) =
      match token env s a with
      | Run.cont s1 => loop env s1 as
      | Run.exit code s1 => Run.exit code s1 := rfl

theorem loop_extends (env : Env) (args : List (List Char)) : ∀ s : St,
    Extends (fun r => WellFormed r ∧ InRange r) s (loop env s args).st := by
  induction args with
  | nil => intro s; exact extends_refl _ s
  | cons a as ih =>
    intro s
    have h1 := token_extends env s a
    rw [loop_cons]
    cases ht : token env s a with
    | cont t =>
      rw [ht] at h1
      exact extends_trans _ _ _ _ h1 (ih t)
    | exit c t =>
      rw [ht] at h1
      exact h1

theorem main_extends (env : Env) (argv : List (List Char)) :
    Extends (fun r => WellFormed r ∧ InRange r) initSt (main env argv).st := by
  unfold main
  simp only []
  split_ifs with hlen
  · exact emit_extends _ _ _ rfl
  · have h := loop_extends env argv.tail { fd := -1, log := [] }
    cases hl : loop env { fd := -1, log := [] } argv.tail with
    | cont t =>
      rw [hl] at h
      exact extends_trans _ _ _ _ h (emit_extends _ _ _ rfl)
    | exit c t =>
      rw [hl] at h
      exact h

theorem main_reports (env : Env) (argv : List (List Char)) :
    ∀ r ∈ sent (main env argv).st.log, WellFormed r ∧ InRange r :=
  extends_sent _ _ _ (main_extends env argv) (by intro r hr; simp [initSt, sent] at hr)

theorem loop_accepted (env : Env) (args : List (List Char)) : ∀ s : St,
    (∀ a ∈ args, usageError a = false) → (loop env s args).status = none := by
  induction args with
  | nil => intro s _; rfl
  | cons a as ih =>
    intro s h
    have ha := token_of_accepted env s a (h a (List.mem_cons_self a as))
    rw [loop_cons, ha]
    exact ih _ (fun x hx => h x (List.mem_cons_of_mem a hx))

theorem loop_append (env : Env) (pre post : List (List Char)) : ∀ s : St,
    (∀ a ∈ pre, usageError a = false) →
    loop env s (pre ++ post) = loop env (loop env s pre).st post := by
  induction pre with
  | nil => intro s _; rfl
  | cons a as ih =>
    intro s h
    have ha := token_of_accepted env s a (h a (List.mem_cons_self a as))
    rw [List.cons_append, loop_cons, loop_cons env s a as, ha]
    exact ih _ (fun x hx => h x (List.mem_cons_of_mem a hx))

theorem loop_fatal (env : Env) (s : St) (bad : List Char) (post : List (List Char))
    (h : usageError bad = true) :
    loop env s (bad :: post) = Run.exit 1 (s.emit (Event.usage (some bad))) := by
  rw [loop_cons, token_of_usageError env s bad h]
  rfl

theorem loop_status (env : Env) (args : List (List Char)) : ∀ s : St,
    (loop env s args).status = if args.any usageError then some 1 else none := by
  induction args with
  | nil => intro s; rfl
  | cons a as ih =>
    intro s
    by_cases ha : usageError a = true
    · rw [loop_fatal env s a as ha]
      simp [ha, Run.status]
    · have ha' : usageError a = false := by simpa using ha
      have ht := token_of_accepted env s a ha'
      rw [loop_cons, ht]
      simp only [List.any_cons, ha', Bool.false_or]
      exact ih _

theorem main_status (env : Env) (argv : List (List Char)) (h : 2 ≤ argv.length) :
    (main env argv).status = some (if argv.tail.any usageError then 1 else 0) := by
  have hl := loop_status env argv.tail { fd := -1, log := [] }
  unfold main
  simp only []
  rw [if_neg (by omega)]
  cases hr : loop env { fd := -1, log := [] } argv.tail with
  | cont t =>
    rw [hr] at hl
    by_cases hany : argv.tail.any usageError = true
    · rw [if_pos hany] at hl
      simp [Run.status] at hl
    · simp [hany, Run.status]
  | exit c t =>
    rw [hr] at hl
    by_cases hany : argv.tail.any usageError = true
    · rw [if_pos hany] at hl
      simp only [Run.status] at hl ⊢
      rw [if_pos hany]
      exact hl
    · rw [if_neg hany] at hl
      simp [Run.status] at hl

theorem usageError_select (arg : List Char)
    (h : arg.headD (Char.ofNat 0) = '/' ∨ arg.headD (Char.ofNat 0) = '.') :
    usageError arg = false := by
  have h1 := (token_select_spec env0 st0 arg h).1
  unfold usageError
  rw [h1]
  rfl

theorem usageError_unknown (arg : List Char)
    (h : ∀ c ∈ ['/', '.', '=', ':', '@', '_', '+', '-', '%'], arg.headD (Char.ofNat 0) ≠ c) :
    usageError arg = true := by
  have h0 : ∀ c, c ∈ ['/', '.', '=', ':', '@', '_', '+', '-', '%'] →
      ¬ (arg.headD (Char.ofNat 0) = c) := h
  unfold usageError token
  simp +decide only [h0, List.mem_cons, true_or, or_true, if_false, or_self, not_false_eq_true,
    usage, Run.status]

theorem parseFormat_set : parseFormat ":%hhu,%hhu,%hhu".toList =
    [Directive.lit ':', Directive.hhu, Directive.lit ',', Directive.hhu, Directive.lit ',',
      Directive.hhu] := by
  decide

theorem sscanf_setToken (R G B : Nat) (hR : R < 256) (hG : G < 256) (hB : B < 256) :
    sscanf (setToken R G B) ":%hhu,%hhu,%hhu".toList = (3, [R, G, B]) := by
  have hR2 : R < 65536 := by omega
  have hG2 : G < 65536 := by omega
  have hB2 : B < 65536 := by omega
  unfold sscanf
  rw [parseFormat_set]
  simp [setToken, scanDirs, convUnsigned_dec, convUnsigned_dec_nil, stops_comma, inputError,
    *, Nat.mod_eq_of_lt]

theorem token_set (env : Env) (s : St) (R G B : Nat) (hR : R < 256) (hG : G < 256)
    (hB : B < 256) :
    token env s (setToken R G B) = Run.cont (color env s 'n' R G B 0 0 0) := by
  have hsc := sscanf_setToken R G B hR hG hB
  have hhead : (setToken R G B).headD (Char.ofNat 0) = ':' := rfl
  unfold token
  simp only [hhead, hsc]
  simp +decide [var]

/-! ## The forms of the grammar and the code -/

theorem usageError_of_cont (arg : List Char) (t : St) (h : token env0 st0 arg = Run.cont t) :
    usageError arg = false := by
  unfold usageError
  rw [h]
  rfl

theorem usageError_of_usage (arg : List Char)
    (h : token env0 st0 arg = usage st0 (some arg)) : usageError arg = true := by
  unfold usageError
  rw [h]
  rfl

theorem token_fadeShort (env : Env) (s : St) (R G B : Nat) (hR : R < 256) (hG : G < 256)
    (hB : B < 256) :
    token env s ('=' :: (dec R ++ ',' :: (dec G ++ ',' :: dec B))) =
      usage s (some ('=' :: (dec R ++ ',' :: (dec G ++ ',' :: dec B)))) := by
  have hR2 : R < 65536 := by omega
  have hG2 : G < 65536 := by omega
  have hB2 : B < 65536 := by omega
  have hsc : sscanf ('=' :: (dec R ++ ',' :: (dec G ++ ',' :: dec B)))
      "=%hhu,%hhu,%hhu,%hu,%hhu".toList = (3, [R, G, B]) := by
    unfold sscanf
    rw [parseFormat_fade]
    simp [scanDirs, convUnsigned_dec, convUnsigned_dec_nil, stops_comma, inputError, *,
      Nat.mod_eq_of_lt]
  unfold token
  simp only [List.headD_cons, hsc]
  simp +decide

theorem token_setShort (env : Env) (s : St) (R G : Nat) (hR : R < 256) (hG : G < 256) :
    token env s (':' :: (dec R ++ ',' :: dec G)) =
      usage s (some (':' :: (dec R ++ ',' :: dec G))) := by
  have hR2 : R < 65536 := by omega
  have hG2 : G < 65536 := by omega
  have hsc : sscanf (':' :: (dec R ++ ',' :: dec G)) ":%hhu,%hhu,%hhu".toList = (2, [R, G]) := by
    unfold sscanf
    rw [parseFormat_set]
    simp [scanDirs, convUnsigned_dec, convUnsigned_dec_nil, stops_comma, inputError, *,
      Nat.mod_eq_of_lt]
  unfold token
  simp only [List.headD_cons, hsc]
  simp +decide

theorem token_programShort (env : Env) (s : St) (step R G B : Nat) (hstep : step < 256)
    (hR : R < 256) (hG : G < 256) (hB : B < 256) :
    token env s ('@' :: (dec step ++ ':' :: (dec R ++ ',' :: (dec G ++ ',' :: dec B)))) =
      usage s (some ('@' :: (dec step ++ ':' :: (dec R ++ ',' :: (dec G ++ ',' :: dec B))))) := by
  have hstep2 : step < 65536 := by omega
  have hR2 : R < 65536 := by omega
  have hG2 : G < 65536 := by omega
  have hB2 : B < 65536 := by omega
  have hsc : sscanf ('@' :: (dec step ++ ':' :: (dec R ++ ',' :: (dec G ++ ',' :: dec B))))
      "@%hhu:%hhu,%hhu,%hhu,%hu,%hhu".toList = (4, [step, R, G, B]) := by
    unfold sscanf
    rw [parseFormat_step]
    simp [scanDirs, convUnsigned_dec, convUnsigned_dec_nil, stops_comma, stops_colon,
      inputError, *, Nat.mod_eq_of_lt]
  unfold token
  simp only [List.headD_cons, hsc]
  simp +decide

theorem usageError_render (t : SpecToken) (h : t.inDomain = true) :
    usageError t.render = t.fatal := by
  cases t with
  | path p =>
    simp only [SpecToken.inDomain, decide_eq_true_eq] at h
    exact usageError_select p h
  | fade R G B T led =>
    simp only [SpecToken.inDomain, decide_eq_true_eq] at h
    exact usageError_of_cont _ _ (token_fade env0 st0 R G B T led (by omega) (by omega)
      (by omega) (by omega) (by omega))
  | fadeShort R G B =>
    simp only [SpecToken.inDomain, decide_eq_true_eq] at h
    exact usageError_of_usage _ (token_fadeShort env0 st0 R G B (by omega) (by omega) (by omega))
  | setNow R G B =>
    simp only [SpecToken.inDomain, decide_eq_true_eq] at h
    exact usageError_of_cont _ _ (token_set env0 st0 R G B (by omega) (by omega) (by omega))
  | setShort R G =>
    simp only [SpecToken.inDomain, decide_eq_true_eq] at h
    exact usageError_of_usage _ (token_setShort env0 st0 R G (by omega) (by omega))
  | program step R G B T led =>
    simp only [SpecToken.inDomain, decide_eq_true_eq] at h
    by_cases hs : 31 < step
    · simp only [SpecToken.fatal, SpecToken.render, hs, decide_True]
      exact usageError_of_usage _ (token_step_fatal env0 st0 step R G B T led (by omega)
        (by omega) (by omega) (by omega) (by omega) (by omega) (by omega))
    · simp only [SpecToken.fatal, SpecToken.render, hs, decide_False]
      exact usageError_of_cont _ _ (token_step env0 st0 step R G B T led (by omega) (by omega)
        (by omega) (by omega) (by omega) (by omega))
  | programShort step R G B =>
    simp only [SpecToken.inDomain, decide_eq_true_eq] at h
    exact usageError_of_usage _ (token_programShort env0 st0 step R G B (by omega) (by omega)
      (by omega) (by omega))
  | off T led =>
    simp only [SpecToken.inDomain, decide_eq_true_eq] at h
    exact usageError_of_cont _ _ (token_off env0 st0 T led (by omega) (by omega))
  | offNow => decide
  | offJunk c rest =>
    simp only [SpecToken.inDomain, decide_eq_true_eq] at h
    exact usageError_of_usage _ (token_off_garbage env0 st0 [] c rest (by simp) h.1 h.2.1
      h.2.2.1 h.2.2.2)
  | play step =>
    simp only [SpecToken.inDomain, decide_eq_true_eq] at h
    by_cases hs : 31 < step
    · simp only [SpecToken.fatal, SpecToken.render, hs, decide_True]
      exact usageError_of_usage _ (token_play_fatal env0 st0 step hs (by omega))
    · simp only [SpecToken.fatal, SpecToken.render, hs, decide_False]
      exact usageError_of_cont _ _ (token_play env0 st0 step (by omega))
  | play2 step last =>
    simp only [SpecToken.inDomain, decide_eq_true_eq] at h
    exact usageError_of_usage _ (token_play2_fatal env0 st0 step last (by omega) (by omega))
  | play3 step last count =>
    simp only [SpecToken.inDomain, decide_eq_true_eq] at h
    by_cases hs : 31 < step ∨ last < 1 ∨ 33 < last
    · simp only [SpecToken.fatal, SpecToken.render, hs, decide_True]
      exact usageError_of_usage _ (token_play3_fatal env0 st0 step last count (by omega)
        (by omega) (by omega) hs)
    · simp only [SpecToken.fatal, SpecToken.render, hs, decide_False]
      exact usageError_of_cont _ _ (token_play3 env0 st0 step last count (by omega) (by omega)
        (by omega) (by omega))
  | stop step =>
    simp only [SpecToken.inDomain, decide_eq_true_eq] at h
    exact usageError_of_cont _ _ (token_stop env0 st0 step (by omega))
  | clear => decide
  | bare c =>
    simp only [SpecToken.inDomain, decide_eq_true_eq] at h
    rcases h with rfl | rfl | rfl | rfl <;> decide
  | other s =>
    simp only [SpecToken.inDomain, decide_eq_true_eq] at h
    exact usageError_unknown s h

theorem any_usageError_render (toks : List SpecToken)
    (h : ∀ t ∈ toks, t.inDomain = true) :
    (toks.map SpecToken.render).any usageError = toks.any SpecToken.fatal := by
  induction toks with
  | nil => rfl
  | cons t ts ih =>
    simp only [List.map_cons, List.any_cons]
    rw [usageError_render t (h t (List.mem_cons_self t ts)),
      ih (fun x hx => h x (List.mem_cons_of_mem t hx))]

theorem processed_of_accepted (env : Env) (args : List (List Char)) : ∀ s : St,
    (∀ a ∈ args, usageError a = false) → loop env s args = Run.cont (processed env s args) := by
  induction args with
  | nil => intro s _; rfl
  | cons a as ih =>
    intro s h
    have ha := token_of_accepted env s a (h a (List.mem_cons_self a as))
    rw [loop_cons, ha]
    exact ih _ (fun x hx => h x (List.mem_cons_of_mem a hx))

theorem nodevice_spec_tokens (env : Env) (s : St) (t : SpecToken) (hfd : s.fd = -1)
    (hdom : t.inDomain = true) (hok : t.fatal = false)
    (hcmd : ¬ (t.render.headD (Char.ofNat 0) = '/' ∨ t.render.headD (Char.ofNat 0) = '.')) :
    token env s t.render = Run.cont s :=
  token_nodevice env s t.render hfd hcmd (by rw [usageError_render t hdom]; exact hok)

/-! ## The claims on selection, the reports of a run and the exit status -/

/-- C11: a device-selection token (first character `/` or `.`) never calls
`exit` and sends no report.  If `open` succeeds and `isblink1` returns
non-zero, the new descriptor becomes the current one and the previous one,
if there was one (`fd >= 0`), is closed; otherwise the current descriptor is
the one before the token and nothing is closed. -/
theorem select_device (env : Env) (s : St) (arg : List Char)
    (hsel : arg.headD (Char.ofNat 0) = '/' ∨ arg.headD (Char.ofNat 0) = '.') :
    (token env s arg).status = none ∧
    sent (token env s arg).st.log = sent s.log ∧
    ((0 ≤ env.openRc s.log arg ∧
        (isblink1 env (s.emit (Event.opened arg (env.openRc s.log arg)))
          (env.openRc s.log arg)).1 ≠ 0) →
      (token env s arg).st.fd = env.openRc s.log arg ∧
      closes (token env s arg).st.log =
        closes s.log ++ (if 0 ≤ s.fd then [s.fd] else [])) ∧
    (¬ (0 ≤ env.openRc s.log arg ∧
        (isblink1 env (s.emit (Event.opened arg (env.openRc s.log arg)))
          (env.openRc s.log arg)).1 ≠ 0) →
      (token env s arg).st.fd = s.fd ∧
      closes (token env s arg).st.log = closes s.log) :=
  token_select_spec env s arg hsel

/-- Witness of `select_device` in the system `env1`, with descriptor 3
selected: `/dev/hidraw0` is adopted as descriptor 4 and 3 is closed;
`/dev/null` fails the probe and `./missing` cannot be opened, and both leave
descriptor 3 selected; no report is sent. -/
theorem select_device_witness :
    ((token env1 st0 "/dev/hidraw0".toList).st.fd = 4 ∧
      closes (token env1 st0 "/dev/hidraw0".toList).st.log = [3]) ∧
    ((token env1 st0 "/dev/null".toList).st.fd = 3 ∧
      closes (token env1 st0 "/dev/null".toList).st.log = []) ∧
    ((token env1 st0 "./missing".toList).st.fd = 3 ∧
      closes (token env1 st0 "./missing".toList).st.log = []) ∧
    sent (token env1 st0 "/dev/hidraw0".toList).st.log = [] :=
  ⟨(select_device env1 st0 "/dev/hidraw0".toList (by decide)).2.2.1 (by decide),
   (select_device env1 st0 "/dev/null".toList (by decide)).2.2.2 (by decide),
   (select_device env1 st0 "./missing".toList (by decide)).2.2.2 (by decide),
   (select_device env1 st0 "/dev/hidraw0".toList (by decide)).2.1⟩

/-- C12, the code at the failing input: before any device is selected
(`fd == -1`) the bare token `-`, which the usage text documents with a
default step of zero, ends the run in `usage` with status 1, whereas `-5`,
`=255,0,0,100` and `%` leave the state as it is. -/
theorem nodevice_bare_stop_fatal :
    Fatal env1 initSt ['-'] ∧
    (main env1 ["blinkraw".toList, ['-']]).status = some 1 ∧
    token env1 initSt "-5".toList = Run.cont initSt ∧
    token env1 initSt "=255,0,0,100".toList = Run.cont initSt ∧
    token env1 initSt ['%'] = Run.cont initSt := by
  decide

/-- C13: for all R, G, B in [0,255] and T in [0,65535], with a device
selected, the token `=R,G,B,T` followed by `:R,G,B` is processed without
`exit` and sends exactly two reports, `[1,'c',R,G,B,T div 256,T mod 256,0,0]`
and `[1,'n',R,G,B,0,0,0,0]`; they are distinct and agree in every byte other
than bytes 1, 5, 6 and 7. -/
theorem fade_then_set (env : Env) (s : St) (R G B T : Nat) (hfd : s.fd ≠ -1) (hR : R ≤ 255)
    (hG : G ≤ 255) (hB : B ≤ 255) (hT : T ≤ 65535) :
    ∃ r1 r2,
      (loop env s [fadeToken R G B T none, setToken R G B]).status = none ∧
      sent (loop env s [fadeToken R G B T none, setToken R G B]).st.log =
        sent s.log ++ [r1, r2] ∧
      r1 = [1, 'c'.toNat, R, G, B, T / 256, T % 256, 0, 0] ∧
      r2 = [1, 'n'.toNat, R, G, B, 0, 0, 0, 0] ∧
      r1 ≠ r2 ∧
      ∀ i, i ≠ 1 → i ≠ 5 → i ≠ 6 → i ≠ 7 → byte r1 i = byte r2 i := by
  have h1 := token_fade env s R G B T none (by omega) (by omega) (by omega) (by omega)
    (by simp)
  have hfd1 : (color env s 'c' R G B T 0 0).fd ≠ -1 := by rw [color_fd]; exact hfd
  have h2 := token_set env (color env s 'c' R G B T 0 0) R G B (by omega) (by omega) (by omega)
  have hl : loop env s [fadeToken R G B T none, setToken R G B] =
      Run.cont (color env (color env s 'c' R G B T 0 0) 'n' R G B 0 0 0) := by
    rw [loop_cons, h1]
    simp only [Option.getD_none]
    rw [loop_cons, h2]
    rfl
  refine ⟨_, _, ?_, ?_, rfl, rfl, ?_, ?_⟩
  · rw [hl]; rfl
  · rw [hl]
    simp only [Run.st]
    rw [color_sent env _ 'n' R G B 0 0 0 hfd1 (by omega) (by omega) (by omega) (by omega)
      (by omega) (by omega),
      color_sent env s 'c' R G B T 0 0 hfd (by omega) (by omega) (by omega) (by omega)
      (by omega) (by omega), List.append_assoc]
    rfl
  · intro h
    have h1 : 'c'.toNat = 'n'.toNat := congrArg (fun r => byte r 1) h
    exact absurd h1 (by decide)
  · intro i hi1 hi5 hi6 hi7
    match i with
    | 0 => rfl
    | 1 => exact absurd rfl hi1
    | 2 => rfl
    | 3 => rfl
    | 4 => rfl
    | 5 => exact absurd rfl hi5
    | 6 => exact absurd rfl hi6
    | 7 => exact absurd rfl hi7
    | 8 => rfl
    | n + 9 => rfl


/-- Witness of `fade_then_set`: the tokens `=255,0,0,100` and `:255,0,0`. -/
theorem fade_then_set_witness :
    ∃ r1 r2,
      (loop env0 st0 [fadeToken 255 0 0 100 none, setToken 255 0 0]).status = none ∧
      sent (loop env0 st0 [fadeToken 255 0 0 100 none, setToken 255 0 0]).st.log =
        sent st0.log ++ [r1, r2] ∧
      r1 = [1, 'c'.toNat, 255, 0, 0, 100 / 256, 100 % 256, 0, 0] ∧
      r2 = [1, 'n'.toNat, 255, 0, 0, 0, 0, 0, 0] ∧
      r1 ≠ r2 ∧
      ∀ i, i ≠ 1 → i ≠ 5 → i ≠ 6 → i ≠ 7 → byte r1 i = byte r2 i :=
  fade_then_set env0 st0 255 0 0 100 (by decide) (by decide) (by decide) (by decide)
    (by decide)

/-- C14: every report a token hands to the device, in any state and for any
argument string, has exactly 9 bytes, byte 0 equal to 1, byte 8 equal to 0,
bytes 5..8 zero when the opcode is `'n'`, bytes 3..8 zero when it is `'l'`
and bytes 6..8 zero when it is `'p'`; hence so has every report of a run of
`main`. -/
theorem reports_well_formed (env : Env) :
    (∀ (s : St) (arg : List Char), Extends WellFormed s (token env s arg).st) ∧
    ∀ (argv : List (List Char)), ∀ r ∈ sent (main env argv).st.log, WellFormed r :=
  ⟨fun s arg => extends_mono _ _ _ _ (fun _ h => h.1) (token_extends env s arg),
   fun argv r hr => (main_reports env argv r hr).1⟩

/-- Witness of `reports_well_formed`: the report of `=255,0,0,100` in a run
that selects `/dev/hidraw0`. -/
theorem reports_well_formed_witness :
    WellFormed [1, 'c'.toNat, 255, 0, 0, 0, 100, 0, 0] :=
  (reports_well_formed env0).2
    ["blinkraw".toList, "/dev/hidraw0".toList, "=255,0,0,100".toList] _ (by decide)

/-- C15: for every argument list, every report sent satisfies the ranges:
byte 7 of a `'c'`, `'n'` or `'P'` report is at most 31, byte 2 of an `'l'`
report is at most 2, and in a `'p'` report byte 3 is at most 31 and byte 4
is at most 33 (0 when no stop index was given, otherwise in [1,33]); the
same holds for the reports a single token appends in any state. -/
theorem reports_in_range (env : Env) :
    (∀ (argv : List (List Char)), ∀ r ∈ sent (main env argv).st.log, InRange r) ∧
    ∀ (s : St) (arg : List Char), Extends InRange s (token env s arg).st :=
  ⟨fun argv r hr => (main_reports env argv r hr).2,
   fun s arg => extends_mono _ _ _ _ (fun _ h => h.2) (token_extends env s arg)⟩

/-- Witness of `reports_in_range`: the `'P'` report of `@32:10,20,30,500`,
whose byte 7 is 31. -/
theorem reports_in_range_witness :
    InRange [1, 'P'.toNat, 10, 20, 30, 1, 244, 31, 0] :=
  (reports_in_range env0).1
    ["blinkraw".toList, "/dev/hidraw0".toList, "@32:10,20,30,500".toList] _ (by decide)

/-- C16, refuted as stated: the step 256 of `+256` is out of range, a fatal
usage error by the validation policy, yet the run ends with status 0. -/
theorem exit_status_wrapped_step :
    SpecToken.fatal (SpecToken.play 256) = true ∧
    (main env0 ["blinkraw".toList, (SpecToken.play 256).render]).status = some 0 ∧
    (main env0 ["blinkraw".toList, "+256".toList]).status = some 0 := by
  decide

/-- C16, amended: for a non-empty list of arguments of the forms of the
grammar, with every numeric field in the range of its C type and no `@` with
step 32, `main` ends with status 1 when some argument is fatal by the
validation policy (unrecognised first character, missing required field,
step above 31 in `@` or `+`, stop outside [1,33] in the three-field `+`) and
with status 0 otherwise, in every system: failed opens, probes and writes do
not change the status. -/
theorem exit_status (env : Env) (prog : List Char) (toks : List SpecToken) (hne : toks ≠ [])
    (hdom : ∀ t ∈ toks, t.inDomain = true) :
    (main env (prog :: toks.map SpecToken.render)).status =
      some (if toks.any SpecToken.fatal then 1 else 0) ∧
    ∀ env' : Env, (main env' (prog :: toks.map SpecToken.render)).status =
      (main env (prog :: toks.map SpecToken.render)).status := by
  have hlen : 2 ≤ (prog :: toks.map SpecToken.render).length := by
    cases toks with
    | nil => exact absurd rfl hne
    | cons t ts => simp
  have hst : ∀ e : Env, (main e (prog :: toks.map SpecToken.render)).status =
      some (if toks.any SpecToken.fatal then 1 else 0) := by
    intro e
    rw [main_status e _ hlen, List.tail_cons, any_usageError_render toks hdom]
  exact ⟨hst env, fun env' => by rw [hst env', hst env]⟩

/-- Witness of `exit_status` in the system `env1`, where one open fails, one
probe fails and every write fails: the run of accepted arguments ends with
status 0, and with status 1 when `=255,0,0` (no duration) or
`@40:10,20,30,500` (step above 31) is added. -/
theorem exit_status_witness :
    (main env1 ["blinkraw".toList, "./missing".toList, "/dev/null".toList,
      "/dev/hidraw0".toList, "=255,0,0,100".toList, "-5".toList]).status = some 0 ∧
    (main env1 ["blinkraw".toList, "/dev/hidraw0".toList, "=255,0,0,100".toList,
      "=255,0,0".toList]).status = some 1 ∧
    (main env1 ["blinkraw".toList, "/dev/hidraw0".toList,
      "@40:10,20,30,500".toList]).status = some 1 :=
  ⟨(exit_status env1 "blinkraw".toList
      [SpecToken.path "./missing".toList, SpecToken.path "/dev/null".toList,
        SpecToken.path "/dev/hidraw0".toList, SpecToken.fade 255 0 0 100 none,
        SpecToken.stop 5] (by decide) (by decide)).1,
   (exit_status env1 "blinkraw".toList
      [SpecToken.path "/dev/hidraw0".toList, SpecToken.fade 255 0 0 100 none,
        SpecToken.fadeShort 255 0 0] (by decide) (by decide)).1,
   (exit_status env1 "blinkraw".toList
      [SpecToken.path "/dev/hidraw0".toList, SpecToken.program 40 10 20 30 500 none]
      (by decide) (by decide)).1⟩

/-- C17: when the first usage error of the argument list is `bad`, preceded
by the arguments `pre`, the run ends with `exit(1)` in the state that
processing `pre` token by token, in order, has produced, with the usage
message added: the reports sent are those of `pre`, nothing is sent for `bad`
or for a later argument, and no later path is opened. -/
theorem fatal_stops (env : Env) (prog : List Char) (pre : List (List Char)) (bad : List Char)
    (post : List (List Char)) (hpre : ∀ a ∈ pre, usageError a = false)
    (hbad : usageError bad = true) :
    main env (prog :: (pre ++ bad :: post)) =
      Run.exit 1 ((processed env initSt pre).emit (Event.usage (some bad))) ∧
    sent (main env (prog :: (pre ++ bad :: post))).st.log =
      sent (processed env initSt pre).log ∧
    opens (main env (prog :: (pre ++ bad :: post))).st.log =
      opens (processed env initSt pre).log := by
  have hm : main env (prog :: (pre ++ bad :: post)) =
      Run.exit 1 ((processed env initSt pre).emit (Event.usage (some bad))) := by
    have hlen : ¬ (prog :: (pre ++ bad :: post)).length < 2 := by
      simp only [List.length_cons, List.length_append]
      omega
    unfold main
    simp only []
    rw [if_neg hlen]
    have hl : loop env { fd := -1, log := [] } (prog :: (pre ++ bad :: post)).tail =
        Run.exit 1 ((processed env initSt pre).emit (Event.usage (some bad))) := by
      rw [List.tail_cons]
      have h1 := loop_append env pre (bad :: post) initSt hpre
      rw [processed_of_accepted env pre initSt hpre] at h1
      exact h1.trans (loop_fatal env _ bad post hbad)
    rw [hl]
  refine ⟨hm, ?_, ?_⟩
  · rw [hm]
    simp [Run.st, St.emit, sent_append, sent]
  · rw [hm]
    simp [Run.st, St.emit, opens_append, opens]

/-- Witness of `fatal_stops`: the run `blinkraw /dev/hidraw0 =255,0,0,100
@40:10,20,30,500 /dev/hidraw1 %` opens `/dev/hidraw0`, sends the report of
`=255,0,0,100` and stops at `@40:10,20,30,500`. -/
theorem fatal_stops_witness :
    main env0 ["blinkraw".toList, "/dev/hidraw0".toList, "=255,0,0,100".toList,
        "@40:10,20,30,500".toList, "/dev/hidraw1".toList, "%".toList] =
      Run.exit 1
        { fd := 3
          log := [Event.opened "/dev/hidraw0".toList 3, Event.rawinfo 3 0,
            Event.feature 3 [1, 'c'.toNat, 255, 0, 0, 0, 100, 0, 0],
            Event.usage (some "@40:10,20,30,500".toList)] } ∧
    sent (main env0 ["blinkraw".toList, "/dev/hidraw0".toList, "=255,0,0,100".toList,
        "@40:10,20,30,500".toList, "/dev/hidraw1".toList, "%".toList]).st.log =
      [[1, 'c'.toNat, 255, 0, 0, 0, 100, 0, 0]] ∧
    opens (main env0 ["blinkraw".toList, "/dev/hidraw0".toList, "=255,0,0,100".toList,
        "@40:10,20,30,500".toList, "/dev/hidraw1".toList, "%".toList]).st.log =
      ["/dev/hidraw0".toList] :=
  fatal_stops env0 "blinkraw".toList ["/dev/hidraw0".toList, "=255,0,0,100".toList]
    "@40:10,20,30,500".toList ["/dev/hidraw1".toList, "%".toList] (by decide) (by decide)

/-- C18: without arguments `main` calls `usage(NULL)`: the run ends with
status 1, the trace holds the usage message only, and no report is sent. -/
theorem no_arguments (env : Env) (prog : List Char) :
    main env [prog] = Run.exit 1 (initSt.emit (Event.usage none)) ∧
    main env [] = Run.exit 1 (initSt.emit (Event.usage none)) ∧
    (main env [prog]).status = some 1 ∧
    sent (main env [prog]).st.log = [] :=
  ⟨rfl, rfl, rfl, rfl⟩

end Blink1raw
